import Mathlib

/-!
Mantid: RAL_NLLS trust-region internals, MuonAsymmetryCalc, CreateGroupingWorkspace,
ExtractSubtrees, TimeIndexControl, ReflDataProcessorPresenter, DgsReduction.

A shallow embedding of parts of the Mantid sources:

* `Framework/CurveFitting/inc/MantidCurveFitting/RalNlls/Internal.h`
  (status codes, options, inform record; the routines declared there have no
  body in the sources at hand and are modelled from the specification, each
  marked as such),
* `Code/Mantid/Framework/Algorithms/src/MuonAsymmetryCalc.cpp`,
* `Code/Mantid/Framework/Algorithms/src/CreateGroupingWorkspace.cpp`,
* `qt/widgets/common/src/Batch/ExtractSubtrees.cpp`,
* `qt/widgets/instrumentview/src/TimeIndexControl.cpp`,
* `qt/scientific_interfaces/ISISReflectometry/ReflDataProcessorPresenter.cpp`,
* `Code/Mantid/Framework/WorkflowAlgorithms/src/DgsReduction.cpp`.

Conventions: a C++ `double` is an exact rational (`ℚ`), so rounding, NaN and
infinities are outside the model, except in the part on TimeIndexControl.cpp,
where a `double` is a rational, an infinity or a NaN; a C++ `int` is an `Int`;
`std::string` is a list of characters and `QString` a string; a `std::map` is
an association list with unique keys.
-/

namespace Mantid

/-! ## RalNlls/Internal.h -/

namespace RalNlls

/-- Constant `tenm3` of Internal.h. -/
def tenm3 : ℚ := 1 / 1000
/-- Constant `tenm5` of Internal.h. -/
def tenm5 : ℚ := 1 / 100000
/-- Constant `tenm8` of Internal.h. -/
def tenm8 : ℚ := 1 / 100000000
/-- Constant `hundred` of Internal.h. -/
def hundred : ℚ := 100
/-- Constant `ten` of Internal.h. -/
def ten : ℚ := 10
/-- Constant `point9` of Internal.h. -/
def point9 : ℚ := 9 / 10
/-- Constant `zero` of Internal.h. -/
def zero : ℚ := 0
/-- Constant `one` of Internal.h. -/
def one : ℚ := 1
/-- Constant `two` of Internal.h. -/
def two : ℚ := 2
/-- Constant `half` of Internal.h. -/
def half : ℚ := 1 / 2
/-- Constant `sixteenth` of Internal.h. -/
def sixteenth : ℚ := 1 / 16

/-- The enumeration `enum class NLLS_ERROR` of Internal.h, one constructor
per enumerator, in the order of the source. -/
inductive NLLS_ERROR where
  | OK
  | MAXITS
  | EVALUATION
  | UNSUPPORTED_MODEL
  | FROM_EXTERNAL
  | UNSUPPORTED_METHOD
  | ALLOCATION
  | MAX_TR_REDUCTIONS
  | X_NO_PROGRESS
  | N_GT_M
  | BAD_TR_STRATEGY
  | FIND_BETA
  | BAD_SCALING
  | DOGLEG_MODEL
  | AINT_EIG_IMAG
  | AINT_EIG_ODD
  | MS_MAXITS
  | MS_TOO_MANY_SHIFTS
  | MS_NO_PROGRESS
  deriving DecidableEq, Repr

namespace NLLS_ERROR

/-- The integer value the source gives each enumerator. -/
def value : NLLS_ERROR → Int
  | OK => 0
  | MAXITS => -1
  | EVALUATION => -2
  | UNSUPPORTED_MODEL => -3
  | FROM_EXTERNAL => -4
  | UNSUPPORTED_METHOD => -5
  | ALLOCATION => -6
  | MAX_TR_REDUCTIONS => -7
  | X_NO_PROGRESS => -8
  | N_GT_M => -9
  | BAD_TR_STRATEGY => -10
  | FIND_BETA => -11
  | BAD_SCALING => -12
  | DOGLEG_MODEL => -101
  | AINT_EIG_IMAG => -201
  | AINT_EIG_ODD => -202
  | MS_MAXITS => -301
  | MS_TOO_MANY_SHIFTS => -302
  | MS_NO_PROGRESS => -303

/-- The identifier of each enumerator, as written in the source. -/
def ident : NLLS_ERROR → String
  | OK => "OK"
  | MAXITS => "MAXITS"
  | EVALUATION => "EVALUATION"
  | UNSUPPORTED_MODEL => "UNSUPPORTED_MODEL"
  | FROM_EXTERNAL => "FROM_EXTERNAL"
  | UNSUPPORTED_METHOD => "UNSUPPORTED_METHOD"
  | ALLOCATION => "ALLOCATION"
  | MAX_TR_REDUCTIONS => "MAX_TR_REDUCTIONS"
  | X_NO_PROGRESS => "X_NO_PROGRESS"
  | N_GT_M => "N_GT_M"
  | BAD_TR_STRATEGY => "BAD_TR_STRATEGY"
  | FIND_BETA => "FIND_BETA"
  | BAD_SCALING => "BAD_SCALING"
  | DOGLEG_MODEL => "DOGLEG_MODEL"
  | AINT_EIG_IMAG => "AINT_EIG_IMAG"
  | AINT_EIG_ODD => "AINT_EIG_ODD"
  | MS_MAXITS => "MS_MAXITS"
  | MS_TOO_MANY_SHIFTS => "MS_TOO_MANY_SHIFTS"
  | MS_NO_PROGRESS => "MS_NO_PROGRESS"

/-- All enumerators of `NLLS_ERROR`, in the order of the source. -/
def enumerators : List NLLS_ERROR :=
  [OK, MAXITS, EVALUATION, UNSUPPORTED_MODEL, FROM_EXTERNAL, UNSUPPORTED_METHOD,
   ALLOCATION, MAX_TR_REDUCTIONS, X_NO_PROGRESS, N_GT_M, BAD_TR_STRATEGY,
   FIND_BETA, BAD_SCALING, DOGLEG_MODEL, AINT_EIG_IMAG, AINT_EIG_ODD,
   MS_MAXITS, MS_TOO_MANY_SHIFTS, MS_NO_PROGRESS]

end NLLS_ERROR

/-- The status names of the error taxonomy of the specification (section 7),
in the order they are listed there. This second definition follows the words
of the specification and is compared with the enumeration of the source. -/
def taxonomy : List String :=
  ["OK", "MAXITS", "MAX_TR_REDUCTIONS", "EVALUATION", "FROM_EXTERNAL",
   "UNSUPPORTED_MODEL", "UNSUPPORTED_METHOD", "N_GT_M", "BAD_TR_STRATEGY",
   "BAD_SCALING", "ALLOCATION", "X_NO_PROGRESS", "DOGLEG_MODEL",
   "AINT_EIG_IMAG", "AINT_EIG_ODD", "MS_MAXITS", "MS_TOO_MANY_SHIFTS",
   "MS_NO_PROGRESS"]

/-- The record `struct nlls_options` of Internal.h. Every member carries the
default member initializer of the source, except `more_sorensen_tiny`, whose
initializer `10.0 * epsmch` uses a constant of FortranDefs.h; see
`nlls_options.init`. -/
structure nlls_options where
  maxit : Int := 100
  model : Int := 3
  nlls_method : Int := 4
  lls_solver : Int := 1
  stop_g_absolute : ℚ := tenm5
  stop_g_relative : ℚ := tenm8
  relative_tr_radius : Int := 0
  initial_radius_scale : ℚ := 1
  initial_radius : ℚ := hundred
  maximum_radius : ℚ := 100000000
  eta_successful : ℚ := 1 / 100000000
  eta_success_but_reduce : ℚ := 1 / 100000000
  eta_very_successful : ℚ := point9
  eta_too_successful : ℚ := two
  radius_increase : ℚ := two
  radius_reduce : ℚ := half
  radius_reduce_max : ℚ := sixteenth
  tr_update_strategy : Int := 1
  hybrid_switch : ℚ := 1 / 10
  exact_second_derivatives : Bool := false
  subproblem_eig_fact : Bool := false
  scale : Int := 1
  scale_max : ℚ := 100000000000
  scale_min : ℚ := 1 / 100000000000
  scale_trim_min : Bool := true
  scale_trim_max : Bool := true
  scale_require_increase : Bool := false
  calculate_svd_J : Bool := true
  more_sorensen_maxits : Int := 500
  more_sorensen_shift : ℚ := 1 / 10000000000000
  more_sorensen_tiny : ℚ
  more_sorensen_tol : ℚ := 1 / 1000
  hybrid_tol : ℚ := 2
  hybrid_switch_its : Int := 1
  output_progress_vectors : Bool := false

/-- A default-constructed `nlls_options`. The machine epsilon `epsmch` is
declared in FortranDefs.h, which is not among the sources, and is a
parameter. -/
def nlls_options.init (epsmch : ℚ) : nlls_options :=
  { more_sorensen_tiny := 10 * epsmch }

/-- The record `struct nlls_inform` of Internal.h. The vectors are lists. -/
structure nlls_inform where
  status : NLLS_ERROR
  error_message : String
  alloc_status : Int
  bad_alloc : String
  iter : Int
  f_eval : Int
  g_eval : Int
  h_eval : Int
  convergence_normf : Int
  convergence_normg : Int
  resvec : List ℚ
  gradvec : List ℚ
  smallest_sv : List ℚ
  largest_sv : List ℚ
  obj : ℚ
  norm_g : ℚ
  scaled_g : ℚ
  external_return : Int
  external_name : String

/-- A default-initialised `nlls_inform` (the declaration `nlls_inform inform;`).
Each member takes its default member initializer; a `std::string` and a vector
are empty. The member `iter` is declared `INTEGER iter;` with no initializer,
so default-initialisation leaves it with an indeterminate value: that value
is the parameter `indeterminate`. The constant `HUGE` is declared in
FortranDefs.h, which is not among the sources, and is a parameter. -/
def nlls_inform.init (HUGE : ℚ) (indeterminate : Int) : nlls_inform :=
  { status := NLLS_ERROR.OK
    error_message := ""
    alloc_status := 0
    bad_alloc := ""
    iter := indeterminate
    f_eval := 0
    g_eval := 0
    h_eval := 0
    convergence_normf := 0
    convergence_normg := 0
    resvec := []
    gradvec := []
    smallest_sv := []
    largest_sv := []
    obj := HUGE
    norm_g := HUGE
    scaled_g := HUGE
    external_return := 0
    external_name := "" }

/-- Modelled from the spec: the body of `calculate_rho` (declared at
Internal.h line 436) is not among the sources. Section 4.3 of the
specification: the ratio of the actual reduction `(normf² - normfnew²)/2` to
the predicted reduction `(normf² - md²)/2`, and `rho = -1` when the predicted
reduction is non-positive. The reference parameter `rho` is the result. -/
def calculate_rho (normf normfnew md : ℚ) (_options : nlls_options) : ℚ :=
  let actual_reduction := (normf ^ 2 - normfnew ^ 2) / 2
  let predicted_reduction := (normf ^ 2 - md ^ 2) / 2
  if predicted_reduction ≤ 0 then -1
  else actual_reduction / predicted_reduction

/-- Modelled from the spec: the body of `test_convergence` (declared at
Internal.h lines 442-443) is not among the sources. Section 4.5 of the
specification: the gradient test
`‖Jᵀf‖ ≤ max(stop_g_absolute, stop_g_relative · ‖J0ᵀf0‖)`; when it holds the
flag `convergence_normg` of the inform record is set. The specification
states no test on `normF`, so `convergence_normf` is left as it is. -/
def test_convergence (_normF normJF _normF0 normJF0 : ℚ)
    (options : nlls_options) (inform : nlls_inform) : nlls_inform :=
  if normJF ≤ max options.stop_g_absolute (options.stop_g_relative * normJF0) then
    { inform with convergence_normg := 1 }
  else inform

/-- The three user callbacks of a solve (`eval_f_type`, `eval_j_type`,
`eval_hf_type` of Internal.h). -/
inductive Callback where
  | eval_f
  | eval_j
  | eval_hf
  deriving DecidableEq, Repr

/-- The observable result of a solve: the parameter vector, the inform record
and the callbacks that were invoked, oldest first. -/
structure SolveResult (X : Type) where
  x : X
  inform : nlls_inform
  calls : List Callback

/-- Modelled from the spec: the driver of the solve is not among the sources
(Internal.h declares only its workspace and status codes). Sections 4.5, 7 and
8 of the specification: `n > m` is a configuration error that aborts the solve
immediately with `N_GT_M`, populating `error_message`, without attempting any
evaluation; otherwise INITIALIZING evaluates `f(x0)` and `J(x0)`, a non-zero
status from a callback ends the solve with `EVALUATION`, and the solve goes on
to ITERATING. A callback `(status, n, m, x, out, params) -> void` is a function
returning the status and the output. The texts of the error messages and the
ITERATING state (which needs the subproblem solvers, also absent) are the
parameters `message` and `iterating`. -/
def nlls_solve {X F J P : Type} (n m : Int) (x : X)
    (eval_f : Int → Int → X → P → Int × F)
    (eval_j : Int → Int → X → P → Int × J)
    (params : P) (_options : nlls_options) (inform : nlls_inform)
    (message : NLLS_ERROR → String)
    (iterating : X → F → J → nlls_inform → List Callback → SolveResult X) :
    SolveResult X :=
  if n > m then
    { x := x,
      inform := { inform with status := NLLS_ERROR.N_GT_M,
                              error_message := message NLLS_ERROR.N_GT_M },
      calls := [] }
  else
    let rf := eval_f n m x params
    let inform1 := { inform with f_eval := inform.f_eval + 1 }
    if rf.1 ≠ 0 then
      { x := x,
        inform := { inform1 with status := NLLS_ERROR.EVALUATION,
                                 error_message := message NLLS_ERROR.EVALUATION },
        calls := [Callback.eval_f] }
    else
      let rj := eval_j n m x params
      let inform2 := { inform1 with g_eval := inform1.g_eval + 1 }
      if rj.1 ≠ 0 then
        { x := x,
          inform := { inform2 with status := NLLS_ERROR.EVALUATION,
                                   error_message := message NLLS_ERROR.EVALUATION },
          calls := [Callback.eval_f, Callback.eval_j] }
      else
        iterating x rf.2 rj.2 inform2 [Callback.eval_f, Callback.eval_j]

end RalNlls

/-! ## Algorithms -/

namespace Algorithms

/-! ### MuonAsymmetryCalc.cpp -/

/-- The part of a `MatrixWorkspace` that `MuonAsymmetryCalc::exec` reads:
`blocksize()`, `dataY(i)[j]` and `readX(0)`. -/
structure MatrixWorkspace where
  blocksize : Nat
  dataY : Int → Nat → ℚ
  readX0 : List ℚ

/-- The single-spectrum output workspace `outputWS`: `dataX(0)`, `dataY(0)`,
`dataE(0)`. -/
structure OutputWorkspace where
  dataX0 : List ℚ
  dataY0 : List ℚ
  dataE0 : List ℚ

namespace MuonAsymmetryCalc

/-- The workspace `tmpWS` of `exec`: the input grouped twice by the child
algorithm `GroupDetectors` (a parameter) when either list has more than one
spectrum, the input itself otherwise. -/
def tmpWS (GroupDetectors : MatrixWorkspace → List Int → MatrixWorkspace)
    (forward_list backward_list : List Int) (inputWS : MatrixWorkspace) :
    MatrixWorkspace :=
  if forward_list.length > 1 ∨ backward_list.length > 1 then
    GroupDetectors (GroupDetectors inputWS backward_list) forward_list
  else inputWS

/-- The index `forward` of `exec` at the loop. -/
def forward (forward_list backward_list : List Int) : Int :=
  if forward_list.length > 1 ∨ backward_list.length > 1 then 0
  else if forward_list.length ≠ 0 then forward_list.headD 0 else 0

/-- The index `backward` of `exec` at the loop. -/
def backward (forward_list backward_list : List Int) : Int :=
  if forward_list.length > 1 ∨ backward_list.length > 1 then 1
  else if backward_list.length ≠ 0 then backward_list.headD 1 else 1

/-- The value written to `outputWS->dataY(0)[j]` by the loop body, from the
forward count `F`, the backward count `B` and `alpha`. -/
def binY (alpha F B : ℚ) : ℚ :=
  let numerator := F - alpha * B
  let denominator := F + alpha * B
  if denominator ≠ 0 then numerator / denominator else 0

/-- The value written to `outputWS->dataE(0)[j]` by the loop body. The
library function `sqrt` is a parameter. -/
def binE (sqrt : ℚ → ℚ) (alpha F B : ℚ) : ℚ :=
  let numerator := F - alpha * B
  let denominator := F + alpha * B
  if denominator ≠ 0 then
    let q1 := F + alpha * alpha * B
    let q2 := 1 + numerator * numerator / (denominator * denominator)
    sqrt (q1 * q2) / denominator
  else 1

/-- One pass of the loop `for (size_t j = 0; j < tmpWS->blocksize(); ++j)`:
the body at bin `j`. -/
def loopBody (sqrt : ℚ → ℚ) (alpha : ℚ) (tmp : MatrixWorkspace)
    (fwd bwd : Int) (out : OutputWorkspace) (j : Nat) : OutputWorkspace :=
  { out with
    dataY0 := out.dataY0.set j (binY alpha (tmp.dataY fwd j) (tmp.dataY bwd j))
    dataE0 := out.dataE0.set j (binE sqrt alpha (tmp.dataY fwd j) (tmp.dataY bwd j)) }

/-- The method `MuonAsymmetryCalc::exec`: the output workspace is created with
`inputWS->blocksize()` bins (zero-filled), the loop runs over the bins of
`tmpWS`, and the input time bins are copied to the output. A write past the
end of the output vectors (undefined in C++) is dropped. -/
def exec (sqrt : ℚ → ℚ)
    (GroupDetectors : MatrixWorkspace → List Int → MatrixWorkspace)
    (forward_list backward_list : List Int) (alpha : ℚ)
    (inputWS : MatrixWorkspace) : OutputWorkspace :=
  let tmp := tmpWS GroupDetectors forward_list backward_list inputWS
  let fwd := forward forward_list backward_list
  let bwd := backward forward_list backward_list
  let outputWS : OutputWorkspace :=
    { dataX0 := []
      dataY0 := List.replicate inputWS.blocksize 0
      dataE0 := List.replicate inputWS.blocksize 0 }
  let looped := (List.range tmp.blocksize).foldl (loopBody sqrt alpha tmp fwd bwd) outputWS
  { looped with dataX0 := inputWS.readX0 }

/-- The forward count `tmpWS->dataY(forward)[j]` read by the loop at bin `j`. -/
def forwardCount (GroupDetectors : MatrixWorkspace → List Int → MatrixWorkspace)
    (forward_list backward_list : List Int) (inputWS : MatrixWorkspace) (j : Nat) : ℚ :=
  (tmpWS GroupDetectors forward_list backward_list inputWS).dataY
    (forward forward_list backward_list) j

/-- The backward count `tmpWS->dataY(backward)[j]` read by the loop at bin `j`. -/
def backwardCount (GroupDetectors : MatrixWorkspace → List Int → MatrixWorkspace)
    (forward_list backward_list : List Int) (inputWS : MatrixWorkspace) (j : Nat) : ℚ :=
  (tmpWS GroupDetectors forward_list backward_list inputWS).dataY
    (backward forward_list backward_list) j

/-- A two-bin workspace for evaluating `exec`: spectrum 0 holds the counts
`3, 0`, every other spectrum the counts `1, 0`. -/
def sampleWS : MatrixWorkspace :=
  { blocksize := 2
    dataY := fun i j => if j = 0 then (if i = 0 then 3 else 1) else 0
    readX0 := [0, 1, 2] }

end MuonAsymmetryCalc

/-! ### CreateGroupingWorkspace.cpp -/

/-- A `std::string`: its characters. -/
abbrev StdString := List Char

/-- The predicate `boost::algorithm::detail::is_any_ofF<char>(",/*")`: the
character is a comma, a slash or a star. -/
def is_any_of_separators (c : Char) : Bool :=
  c = ',' || c = '/' || c = '*'

/-- The library function `boost::split` with token compression off: the
input is cut at every character satisfying `isSep`; empty tokens are kept, so
an input with `k` separators yields `k + 1` tokens. -/
def boost_split (isSep : Char → Bool) : StdString → List StdString
  | [] => [[]]
  | c :: cs =>
    if isSep c then [] :: boost_split isSep cs
    else
      match boost_split isSep cs with
      | [] => [[c]]
      | t :: ts => (c :: t) :: ts

/-- The classic-locale `isspace` used by `boost::trim`: space, tab, line
feed, vertical tab, form feed, carriage return. -/
def isspace (c : Char) : Bool :=
  c = ' ' || c = '\t' || c = '\n' || c = '\x0b' || c = '\x0c' || c = '\r'

/-- The library function `boost::trim`: leading and trailing white space is
removed. -/
def boost_trim (s : StdString) : StdString :=
  ((s.reverse.dropWhile isspace).reverse).dropWhile isspace

/-- The loop `while (vgroups.back().empty()) vgroups.pop_back();` read from
the back of the vector, that is on the reversed list: `none` when the vector
runs empty, where `back()` is undefined in C++. -/
def popBackWhileEmptyRev : List StdString → Option (List StdString)
  | [] => none
  | b :: rest => if b = [] then popBackWhileEmptyRev rest else some (b :: rest)

/-- The loop `while (vgroups.back().empty()) vgroups.pop_back();`; `none`
stands for the undefined `back()` of an empty vector. -/
def popBackWhileEmpty (vgroups : List StdString) : Option (List StdString) :=
  (popBackWhileEmptyRev vgroups.reverse).map List.reverse

/-- The assignment `m[k] = v` on a `std::map`: the entry of `k` is replaced or
created. -/
def map_assign {K V : Type} [DecidableEq K] (m : List (K × V)) (k : K) (v : V) :
    List (K × V) :=
  (k, v) :: m.filter (fun e => decide (e.1 ≠ k))

/-- The look-up `m.find(k)` on a `std::map`. -/
def map_find {K V : Type} [DecidableEq K] (m : List (K × V)) (k : K) : Option V :=
  (m.find? (fun e => decide (e.1 = k))).map Prod.snd

/-- The loop of `makeGroupingByNames` that trims each name and assigns it the
next number: `boost::trim(*it); group_map[(*it)] = ++index;`. The counter is an
unbounded integer (overflow of the `int` would need more than 2^31 - 1
names). -/
def assignGroupNumbers :
    List StdString → Int → List (StdString × Int) → List (StdString × Int)
  | [], _, group_map => group_map
  | it :: rest, index, group_map =>
    assignGroupNumbers rest (index + 1) (map_assign group_map (boost_trim it) (index + 1))

/-- The names of `vgroups` as `makeGroupingByNames` numbers them: split,
trailing empty names dropped, sorted when `sortnames` is set (the library
call `std::sort` with the comparator `groupnumber` is the parameter `sort`).
`none` is the undefined `back()` of an empty vector. -/
def groupVector (sort : List StdString → List StdString) (GroupNames : StdString)
    (sortnames : Bool) : Option (List StdString) :=
  match popBackWhileEmpty (boost_split is_any_of_separators GroupNames) with
  | none => none
  | some vgroups => some (if sortnames then sort vgroups else vgroups)

/-- The map `group_map` built by the first half of `makeGroupingByNames`
(lines 170-188). -/
def makeGroupingByNames_group_map (sort : List StdString → List StdString)
    (GroupNames : StdString) (sortnames : Bool) : Option (List (StdString × Int)) :=
  match groupVector sort GroupNames sortnames with
  | none => none
  | some vgroups => some (assignGroupNumbers vgroups 0 [])

/-- What `CreateGroupingWorkspace::exec` reads of an instrument: its name,
which component names `getComponentByName(name, 15)` finds, and which
detector IDs the output workspace knows. -/
structure Instrument where
  getName : StdString
  getComponentByName : StdString → Bool
  hasDetector : Int → Bool

/-- The function `makeGroupingByNames`: the group map, then the walk over the
instrument tree that fills `detIDtoGroup`. The walk depends on the component
tree only and is the parameter `walk`; when the group map is empty nothing is
done. `none` is the undefined `back()` of an empty vector. -/
def makeGroupingByNames
    (sort : List StdString → List StdString)
    (walk : List (StdString × Int) → Instrument → List (Int × Int) → List (Int × Int))
    (GroupNames : StdString) (inst : Instrument) (detIDtoGroup : List (Int × Int))
    (sortnames : Bool) : Option (List (Int × Int)) :=
  match makeGroupingByNames_group_map sort GroupNames sortnames with
  | none => none
  | some group_map =>
    if group_map ≠ [] then some (walk group_map inst detIDtoGroup)
    else some detIDtoGroup

/-- The property values read at the start of `CreateGroupingWorkspace::exec`.
`inWS` is `none` for a null `InputWorkspace`, else the instrument of the
workspace. -/
structure Properties where
  inWS : Option Instrument
  InstrumentName : StdString
  InstrumentFilename : StdString
  OldCalFilename : StdString
  GroupNames : StdString
  grouping : StdString

/-- The external actions of `exec`, in the order they happen. -/
inductive Effect where
  | LoadInstrument (Filename InstrumentName : StdString)
  | createOutput
  | makeGroupingByNames (GroupNames : StdString) (sortnames : Bool)
  | readGroupingFile (groupingFileName : StdString)
  deriving DecidableEq, Repr

/-- How a call of `exec` ends. -/
inductive Outcome where
  | returned (values : List (Int × ℚ)) (numNotFound : Nat)
  | invalid_argument (what : String)
  | FileError
  | undefined
  deriving DecidableEq

/-- The result of `exec`: the external actions performed and how it ended. -/
structure ExecResult where
  effects : List Effect
  outcome : Outcome

/-- The text of `GroupNames` built by the loop `for (int num = 0; num < 200;
++num)`: the names `grouping ++ num` of the components that exist, each
followed by a comma (the iterations taken in increasing order). -/
def autoGroupNames (inst : Instrument) (grouping : StdString) : StdString :=
  (List.range 200).foldl
    (fun GroupNames num =>
      let mess := grouping ++ Nat.toDigits 10 num
      if inst.getComponentByName mess then GroupNames ++ mess ++ [','] else GroupNames)
    []

/-- The final loop of `exec` over `detIDtoGroup`: `setValue` stores the group
of a detector the workspace knows and throws `invalid_argument` (caught,
counted in `numNotFound`) for the others. -/
def setValues (inst : Instrument) :
    List (Int × Int) → List (Int × ℚ) × Nat → List (Int × ℚ) × Nat
  | [], acc => acc
  | (detID, group) :: rest, (values, numNotFound) =>
    if inst.hasDetector detID then
      setValues inst rest (map_assign values detID (group : ℚ), numNotFound)
    else
      setValues inst rest (values, numNotFound + 1)

/-- The number `numParams` of instrument sources that `exec` counts. -/
def numParams (p : Properties) : Int :=
  (if p.inWS.isSome then 1 else 0)
    + (if p.InstrumentName ≠ [] then 1 else 0)
    + (if p.InstrumentFilename ≠ [] then 1 else 0)

/-- The part of `exec` under "Get the instrument one of 3 ways": the
instrument of the input workspace, or the one the child algorithm
`LoadInstrument` (a parameter) loads; with the external actions taken. -/
def getInstrument (LoadInstrument : StdString → StdString → Instrument)
    (p : Properties) : Instrument × List Effect :=
  match p.inWS with
  | some inst => (inst, [])
  | none =>
    (LoadInstrument p.InstrumentFilename p.InstrumentName,
     [Effect.LoadInstrument p.InstrumentFilename p.InstrumentName])

/-- The part of `exec` under `if (GroupNames.empty())`: the final value of
`GroupNames` and of `sortnames`. -/
def chooseGroupNames (inst : Instrument) (p : Properties) : StdString × Bool :=
  if p.GroupNames = [] then
    if p.grouping = "All".toList then (inst.getName, false)
    else if inst.getName = "SNAP".toList ∧ p.grouping = "Group".toList then
      ("East,West".toList, false)
    else (autoGroupNames inst p.grouping, true)
  else (p.GroupNames, false)

/-- The part of `exec` after the output is created: the grouping is made one
of two ways and written to the output workspace. The comparator sort, the walk
over the instrument tree and the reader of the .cal file (`none`: the file
cannot be opened, `FileError`) are parameters. -/
def fillGroups
    (sort : List StdString → List StdString)
    (walk : List (StdString × Int) → Instrument → List (Int × Int) → List (Int × Int))
    (readGroupingFile : StdString → Option (List (Int × Int)))
    (inst : Instrument) (OldCalFilename GroupNames : StdString) (sortnames : Bool) :
    List Effect × Outcome :=
  if GroupNames ≠ [] then
    match makeGroupingByNames sort walk GroupNames inst [] sortnames with
    | none => ([Effect.makeGroupingByNames GroupNames sortnames], Outcome.undefined)
    | some detIDtoGroup =>
      ([Effect.makeGroupingByNames GroupNames sortnames],
       Outcome.returned (setValues inst detIDtoGroup ([], 0)).1
         (setValues inst detIDtoGroup ([], 0)).2)
  else if OldCalFilename ≠ [] then
    match readGroupingFile OldCalFilename with
    | none => ([Effect.readGroupingFile OldCalFilename], Outcome.FileError)
    | some detIDtoGroup =>
      ([Effect.readGroupingFile OldCalFilename],
       Outcome.returned (setValues inst detIDtoGroup ([], 0)).1
         (setValues inst detIDtoGroup ([], 0)).2)
  else ([], Outcome.returned [] 0)

/-- The method `CreateGroupingWorkspace::exec`: the validation, then the
instrument (`getInstrument`), the group names (`chooseGroupNames`), the
creation of the output and the grouping (`fillGroups`). A failure inside the
child algorithm `LoadInstrument` is not modelled. -/
def exec
    (LoadInstrument : StdString → StdString → Instrument)
    (sort : List StdString → List StdString)
    (walk : List (StdString × Int) → Instrument → List (Int × Int) → List (Int × Int))
    (readGroupingFile : StdString → Option (List (Int × Int)))
    (p : Properties) : ExecResult :=
  if numParams p > 1 then
    { effects := [],
      outcome := Outcome.invalid_argument
        "You must specify exactly ONE way to get an instrument (workspace, instrument name, or IDF file). You specified more than one." }
  else if numParams p = 0 then
    { effects := [],
      outcome := Outcome.invalid_argument
        "You must specify exactly ONE way to get an instrument (workspace, instrument name, or IDF file). You specified none." }
  else if p.OldCalFilename ≠ [] ∧ p.GroupNames ≠ [] then
    { effects := [],
      outcome := Outcome.invalid_argument
        "You must specify either to use the OldCalFilename parameter OR GroupNames but not both!" }
  else
    let inst := (getInstrument LoadInstrument p).1
    let filled := fillGroups sort walk readGroupingFile inst p.OldCalFilename
      (chooseGroupNames inst p).1 (chooseGroupNames inst p).2
    { effects := (getInstrument LoadInstrument p).2 ++ [Effect.createOutput] ++ filled.1,
      outcome := filled.2 }

/-- A stand-in for the child algorithm `LoadInstrument`, for evaluating
`exec`: the instrument carries the requested name, has no named component and
knows every detector. -/
def sampleLoadInstrument (_Filename InstrumentName : StdString) : Instrument :=
  { getName := InstrumentName
    getComponentByName := fun _ => false
    hasDetector := fun _ => true }

/-- Property values for evaluating `exec`: no input workspace, the given
instrument name, .cal file name and group names, nothing else. -/
def sampleProperties (InstrumentName OldCalFilename GroupNames : StdString) : Properties :=
  { inWS := none
    InstrumentName := InstrumentName
    InstrumentFilename := []
    OldCalFilename := OldCalFilename
    GroupNames := GroupNames
    grouping := [] }

end Algorithms

end Mantid

namespace MantidQt

namespace MantidWidgets

namespace Batch

/-! ### Batch/ExtractSubtrees.cpp -/

/-- Modelled from the spec: the class `RowLocation` (Batch/RowLocation.h) is
not among the sources. A location is the path of child indices that leads
from the root of the tree to the row; the root `RowLocation()` has the empty
path. -/
structure RowLocation where
  path : List Int
  deriving DecidableEq, Repr

namespace RowLocation

/-- The default-constructed location `RowLocation()`: the root. -/
def root : RowLocation := { path := [] }

/-- The method `depth()`: the length of the path. -/
def depth (l : RowLocation) : Int := l.path.length

/-- The method `child(n)`: the location of the `n`-th child. -/
def child (l : RowLocation) (n : Int) : RowLocation := { path := l.path ++ [n] }

/-- The lexicographic order on paths that `operator<` of `RowLocation`
implements, as `≤`: a path precedes its extensions. -/
def pathLe : List Int → List Int → Bool
  | [], _ => true
  | _ :: _, [] => false
  | a :: as, b :: bs => if a < b then true else if b < a then false else pathLe as bs

/-- The order `a ≤ b` on locations, that is `!(b < a)`. -/
def le (a b : RowLocation) : Prop := pathLe a.path b.path = true

instance : DecidableRel le := fun a b => inferInstanceAs (Decidable (pathLe a.path b.path = true))

end RowLocation

/-- The type `Subtree`: a vector of pairs of a location relative to the root
of the subtree and the data of the row. -/
abbrev Subtree (Row : Type) := List (RowLocation × Row)

/-- The result of `extractSubtreeRecursive` together with the subtree it
appended to: `positions` is an initialized optional holding the two iterators
(the rows and the row data not yet consumed) and the flag; `none` is
`boost::none`; `undefined` is the dereference of the data iterator at its
end; `outOfFuel` is not a behaviour of the code: it marks a run of the model
that was given too little fuel. -/
inductive Extraction (Row : Type) where
  | positions (subtree : Subtree Row) (currentRow : List RowLocation)
      (currentRowData : List Row) (subtreeFinished : Bool)
  | none
  | undefined
  | outOfFuel

/-- The location `subtree.back().first`; a subtree is never empty here, it
starts with its root. -/
def Subtree.backLocation {Row : Type} (subtree : Subtree Row) : RowLocation :=
  match subtree.getLast? with
  | some node => node.1
  | Option.none => RowLocation.root

/-- The loop of `extractSubtreeRecursive` (lines 35-67) from a given value of
`childCount`. The iterator `currentRow` is the list of the rows from it to
`endRow`, and `currentRowData` likewise. Each pass of the loop and each
recursive call takes one unit of fuel. -/
def extractSubtreeLoop {Row : Type} :
    Nat → Subtree Row → RowLocation → RowLocation → Int → Int →
      List RowLocation → List Row → Extraction Row
  | 0, _, _, _, _, _, _, _ => Extraction.outOfFuel
  | _ + 1, subtree, _, _, _, _, [], currentRowData =>
    Extraction.positions subtree [] currentRowData true
  | fuel + 1, subtree, rootRelativeToTree, parent, minDepth, childCount,
      row :: rows, currentRowData =>
    if row.depth > minDepth then
      if row.depth = minDepth + 1 then
        match extractSubtreeLoop fuel subtree rootRelativeToTree subtree.backLocation
            (minDepth + 1) 0 (row :: rows) currentRowData with
        | Extraction.positions subtree2 rows2 data2 subtreeFinished =>
          if subtreeFinished then Extraction.positions subtree2 rows2 data2 subtreeFinished
          else extractSubtreeLoop fuel subtree2 rootRelativeToTree parent minDepth childCount
            rows2 data2
        | Extraction.none => Extraction.none
        | Extraction.undefined => Extraction.undefined
        | Extraction.outOfFuel => Extraction.outOfFuel
      else Extraction.none
    else if row.depth < minDepth then
      if row.depth < rootRelativeToTree.depth then
        Extraction.positions subtree (row :: rows) currentRowData true
      else
        Extraction.positions subtree (row :: rows) currentRowData false
    else
      match currentRowData with
      | [] => Extraction.undefined
      | rowData :: data =>
        extractSubtreeLoop fuel (subtree ++ [(parent.child childCount, rowData)])
          rootRelativeToTree parent minDepth (childCount + 1) rows data

/-- The function `extractSubtreeRecursive`: the loop from `childCount = 0`. -/
def extractSubtreeRecursive {Row : Type} (fuel : Nat) (subtree : Subtree Row)
    (rootRelativeToTree parent : RowLocation) (minDepth : Int)
    (currentRow : List RowLocation) (currentRowData : List Row) : Extraction Row :=
  extractSubtreeLoop fuel subtree rootRelativeToTree parent minDepth 0 currentRow currentRowData

/-- How a call of `ExtractSubtrees::operator()` ends: it throws, it returns an
optional list of subtrees, it dereferences an end iterator, or the model was
given too little fuel. -/
inductive Outcome (Row : Type) where
  | threw (what : String)
  | returned (subtrees : Option (List (Subtree Row)))
  | undefined
  | outOfFuel

/-- Modelled from the spec: the helper `assertOrThrow` is not among the
sources; by its name and its use it throws an exception carrying the message
when the condition is false and does nothing otherwise. `some message` is the
exception. -/
def assertOrThrow (condition : Bool) (message : String) : Option String :=
  if condition then Option.none else some message

/-- The call `std::sort(region.begin(), region.end())`: the rows in ascending
order. -/
def sortRegion (region : List RowLocation) : List RowLocation :=
  region.insertionSort RowLocation.le

/-- The loop `while (rowIt != region.end() && !done)` of `operator()` (lines
83-94), one unit of fuel per pass. The recursive extraction is given
`2 * n + 1` units for the `n` rows after the root. -/
def extractSubtreesWhile {Row : Type} :
    Nat → List RowLocation → List Row → Bool → List (Subtree Row) → Outcome Row
  | 0, _, _, _, _ => Outcome.outOfFuel
  | _ + 1, [], _, _, subtrees => Outcome.returned (some subtrees)
  | fuel + 1, row :: rows, rowDataIt, done, subtrees =>
    if done then Outcome.returned (some subtrees)
    else
      match rowDataIt with
      | [] => Outcome.undefined
      | rowData :: data =>
        match extractSubtreeRecursive (2 * rows.length + 1) [(RowLocation.root, rowData)] row
            RowLocation.root (row.depth + 1) rows data with
        | Extraction.positions subtree rows2 data2 done2 =>
          extractSubtreesWhile fuel rows2 data2 done2 (subtrees ++ [subtree])
        | Extraction.none => Outcome.returned Option.none
        | Extraction.undefined => Outcome.undefined
        | Extraction.outOfFuel => Outcome.outOfFuel

/-- The call operator `ExtractSubtrees::operator()(region, regionData)`. -/
def ExtractSubtrees.call {Row : Type} (region : List RowLocation)
    (regionData : List Row) : Outcome Row :=
  match assertOrThrow (decide (region.length = regionData.length))
      "ExtractSubtrees: region must have a length identical to regionData" with
  | some what => Outcome.threw what
  | Option.none =>
    if region ≠ [] then
      extractSubtreesWhile (region.length + 1) (sortRegion region) regionData false []
    else Outcome.returned Option.none

/-- The total number of nodes in a list of subtrees. -/
def nodeCount {Row : Type} (subtrees : List (Subtree Row)) : Nat :=
  (subtrees.map List.length).sum

end Batch

end MantidWidgets

end MantidQt

namespace MantidQt

namespace MantidWidgets

/-! ### instrumentview/TimeIndexControl.cpp -/

/-- A C++ `double`: a finite value, held as the exact rational it denotes
(the rounding of a result is outside the model, and a zero carries no
sign), an infinity, or a NaN. -/
inductive Double where
  | finite (q : ℚ)
  | posInf
  | negInf
  | nan
  deriving DecidableEq, Repr

namespace Double

/-- The comparison `a < b` of two doubles: false whenever an operand is a
NaN. -/
def lt : Double → Double → Bool
  | finite a, finite b => decide (a < b)
  | finite _, posInf => true
  | negInf, finite _ => true
  | negInf, posInf => true
  | _, _ => false

/-- The comparison `a > b` of two doubles, that is `b < a`: false whenever an
operand is a NaN. -/
def gt (a b : Double) : Bool := lt b a

/-- The difference `a - b` of two doubles: a NaN when an operand is a NaN or
both are the same infinity. -/
def sub : Double → Double → Double
  | nan, _ => nan
  | _, nan => nan
  | finite a, finite b => finite (a - b)
  | finite _, posInf => negInf
  | finite _, negInf => posInf
  | posInf, posInf => nan
  | posInf, _ => posInf
  | negInf, negInf => nan
  | negInf, _ => negInf

/-- The quotient `a / b` of two doubles: `0 / 0` and a quotient of two
infinities are NaN, another finite value over zero is an infinity. -/
def div : Double → Double → Double
  | nan, _ => nan
  | _, nan => nan
  | finite a, finite b =>
    if b = 0 then
      if a = 0 then nan else if 0 < a then posInf else negInf
    else finite (a / b)
  | finite _, _ => finite 0
  | posInf, finite b => if 0 ≤ b then posInf else negInf
  | negInf, finite b => if 0 ≤ b then negInf else posInf
  | _, _ => nan

/-- The product `a * n` of a double and an `int` converted to `double`. -/
def mulInt : Double → Int → Double
  | nan, _ => nan
  | finite a, n => finite (a * n)
  | posInf, n => if 0 < n then posInf else if n < 0 then negInf else nan
  | negInf, n => if 0 < n then negInf else if n < 0 then posInf else nan

end Double

/-- The conversion `static_cast<int>` of a `double`: the fractional part of a
finite value is discarded (rounding toward zero). The conversion of a NaN or
an infinity is undefined in C++; what the platform gives for it is the
parameter `indefinite`. -/
def static_cast_int (indefinite : Int) : Double → Int
  | Double.finite q => if 0 ≤ q then ⌊q⌋ else ⌈q⌉
  | _ => indefinite

/-- The state of a `TimeIndexScrollBar`: its data members as the constructor
lists them, the geometry `width()`, `height()` of the frame, and the geometry
of the push button `m_slider`. -/
structure TimeIndexScrollBar where
  m_resizeMargin : Int := 5
  m_init : Bool := false
  m_resizingLeft : Bool := false
  m_resizingRight : Bool := false
  m_moving : Bool := false
  m_changed : Bool := false
  m_x : Int := 0
  m_width : Int := 1
  m_minimum : Double := Double.finite 0
  m_maximum : Double := Double.finite 1
  width : Int
  height : Int
  slider_x : Int := 0
  slider_y : Int := 0
  slider_width : Int
  slider_height : Int

namespace TimeIndexScrollBar

/-- The method `getMinimum`. -/
def getMinimum (self : TimeIndexScrollBar) : Double := self.m_minimum

/-- The method `getMaximum`. -/
def getMaximum (self : TimeIndexScrollBar) : Double := self.m_maximum

/-- The method `getWidth`: maximum minus minimum. -/
def getWidth (self : TimeIndexScrollBar) : Double := Double.sub self.m_maximum self.m_minimum

/-- The scroll bar after a call of `set`, and the `std::invalid_argument` it
threw, if any. -/
structure SetResult where
  self : TimeIndexScrollBar
  thrown : Option String

/-- The method `set(minimum, maximum)` (lines 145-162). -/
def set (indefinite : Int) (self : TimeIndexScrollBar) (minimum maximum : Double) :
    SetResult :=
  if Double.lt minimum (Double.finite 0) || Double.gt minimum (Double.finite 1)
      || Double.lt maximum (Double.finite 0) || Double.gt maximum (Double.finite 1) then
    { self := self
      thrown := some "TimeIndexScrollBar : minimum and maximum must be between 0 and 1" }
  else
    let swapped : Double × Double :=
      if Double.gt minimum maximum then (maximum, minimum) else (minimum, maximum)
    let x := static_cast_int indefinite (Double.mulInt swapped.1 self.width)
    let w := static_cast_int indefinite
      (Double.mulInt (Double.sub swapped.2 swapped.1) self.width)
    let w2 := if w ≤ 2 * self.m_resizeMargin then 2 * self.m_resizeMargin + 1 else w
    { self :=
        { self with
          m_minimum := swapped.1
          m_maximum := swapped.2
          slider_x := x
          slider_y := 0
          slider_width := w2
          slider_height := self.height }
      thrown := none }

end TimeIndexScrollBar

/-- The state of a `TimeIndexControl` that `setRange` reads and writes: the
total range, the chosen range and the scroll bar. -/
structure TimeIndexControl where
  m_totalMinimum : Double := Double.finite 0
  m_totalMaximum : Double := Double.finite 1
  m_minimum : Double := Double.finite 0
  m_maximum : Double := Double.finite 1
  m_scrollBar : TimeIndexScrollBar

namespace TimeIndexControl

/-- The control after a call of `setRange`, and the exception that left it,
if any. -/
structure SetRangeResult where
  self : TimeIndexControl
  thrown : Option String

/-- The method `setRange(minimum, maximum)` (lines 232-249); the update of the
text boxes and the signal are left out. -/
def setRange (indefinite : Int) (self : TimeIndexControl) (minimum maximum : Double) :
    SetRangeResult :=
  let swapped : Double × Double :=
    if Double.gt minimum maximum then (maximum, minimum) else (minimum, maximum)
  let minimum2 :=
    if Double.lt swapped.1 self.m_totalMinimum || Double.gt swapped.1 self.m_totalMaximum then
      self.m_totalMinimum
    else swapped.1
  let maximum2 :=
    if Double.gt swapped.2 self.m_totalMaximum || Double.lt swapped.2 self.m_totalMinimum then
      self.m_totalMaximum
    else swapped.2
  let w := Double.sub self.m_totalMaximum self.m_totalMinimum
  let scrolled := self.m_scrollBar.set indefinite
    (Double.div (Double.sub minimum2 self.m_totalMinimum) w)
    (Double.div (Double.sub maximum2 self.m_totalMinimum) w)
  { self := { self with m_minimum := minimum2, m_maximum := maximum2,
                        m_scrollBar := scrolled.self }
    thrown := scrolled.thrown }

/-- The method `setWholeRange()` (lines 251-253). -/
def setWholeRange (indefinite : Int) (self : TimeIndexControl) : SetRangeResult :=
  self.setRange indefinite self.m_totalMinimum self.m_totalMaximum

end TimeIndexControl

end MantidWidgets

namespace CustomInterfaces

/-! ### ISISReflectometry/ReflDataProcessorPresenter.cpp -/

/-- A `QString`. -/
abbrev QString := String

/-- The type `RowData`, a `QStringList`: the cells of a row, the run number
first. -/
abbrev RowData := List QString

/-- The type `GroupData`, a `std::map<int, RowData>`: the rows in ascending
order of their keys. -/
abbrev GroupData := List (Int × RowData)

/-- What the presenter uses of its surroundings, over a state `World` of the
analysis data service and the disk: the instrument of the view, the look-up
`findRunInADS` (output name and `runFound`), `workspaceExists`, whether
`retrieveWorkspace` gives an event workspace (not null), the run of a loading
algorithm (new state and `isExecuted`), the removal of a workspace from the
service, and the member `m_loader`. -/
structure Presenter (World : Type) where
  getProcessInstrument : World → QString
  findRunInADS : World → QString → QString → QString × Bool
  workspaceExists : World → QString → Bool
  retrieveWorkspace : World → QString → Bool
  executeLoad : World → QString → QString → QString → Bool → World × Bool
  remove : World → QString → World
  m_loader : QString

namespace Presenter

/-- The method `loadRun(run, instrument, prefix, loader, runFound)`: the new
state, the returned name and `runFound`. The property `LoadMonitors` is set
for the loader `LoadEventNexus`. -/
def loadRun {World : Type} (self : Presenter World) (w : World)
    (run instrument pfx loader : QString) : World × QString × Bool :=
  let fileName := instrument ++ run
  let outputName := pfx ++ run
  let executed := self.executeLoad w loader fileName outputName
    (decide (loader = "LoadEventNexus"))
  if !executed.2 then (executed.1, "", false)
  else (executed.1, outputName, true)

/-- The method `loadEventRun(runNo)`: the new state and whether the run was
found. -/
def loadEventRun {World : Type} (self : Presenter World) (w : World) (runNo : QString) :
    World × Bool :=
  let found := self.findRunInADS w runNo "TOF_"
  if !found.2 || !self.workspaceExists w (found.1 ++ "_monitors")
      || !self.retrieveWorkspace w found.1 then
    let loaded := self.loadRun w runNo (self.getProcessInstrument w) "TOF_" "LoadEventNexus"
    (loaded.1, loaded.2.2)
  else (w, found.2)

/-- The method `loadNonEventRun(runNo)`: the new state. -/
def loadNonEventRun {World : Type} (self : Presenter World) (w : World) (runNo : QString) :
    World :=
  let found := self.findRunInADS w runNo "TOF_"
  if !found.2 then
    (self.loadRun w runNo (self.getProcessInstrument w) "TOF_" self.m_loader).1
  else w

/-- Insertion into the `std::set<QString>` `loadedRuns`, kept in ascending
order without repetition. -/
def set_insert (run : QString) : List QString → List QString
  | [] => [run]
  | b :: rest =>
    if run < b then run :: b :: rest
    else if b < run then b :: set_insert run rest
    else b :: rest

/-- The inner loop `for (const auto &rowNew : group)` of `loadGroup`: every row
is loaded as non-event data. `none` is the call `at(0)` on a row without
cells. -/
def loadGroupAsNonEvent {World : Type} (self : Presenter World) :
    World → GroupData → Option World
  | w, [] => some w
  | w, rowNew :: rest =>
    match rowNew.2.head? with
    | none => none
    | some runNo => loadGroupAsNonEvent self (self.loadNonEventRun w runNo) rest

/-- The loop `for (const auto &run : loadedRuns)` of `loadGroup`: the monitors
loaded as separate workspaces are removed. -/
def removeMonitors {World : Type} (self : Presenter World) (w : World)
    (loadedRuns : List QString) : World :=
  loadedRuns.foldl (fun w run => self.remove w ("TOF_" ++ run ++ "_monitors")) w

/-- The outer loop `for (const auto &row : group)` of `loadGroup` over the rows
not yet visited, with the set `loadedRuns` so far: the new state and the
value returned. `none` is the call `at(0)` on a row without cells. -/
def loadGroupLoop {World : Type} (self : Presenter World) (group : GroupData) :
    World → GroupData → List QString → Option (World × Bool)
  | w, [], _ => some (w, true)
  | w, row :: rest, loadedRuns =>
    match row.2.head? with
    | none => none
    | some runNo =>
      if !(self.loadEventRun w runNo).2 then
        match loadGroupAsNonEvent self (self.loadEventRun w runNo).1 group with
        | none => none
        | some w2 => some (removeMonitors self w2 loadedRuns, false)
      else
        loadGroupLoop self group (self.loadEventRun w runNo).1 rest (set_insert runNo loadedRuns)

/-- The method `loadGroup(group)` (lines 146-184). -/
def loadGroup {World : Type} (self : Presenter World) (w : World) (group : GroupData) :
    Option (World × Bool) :=
  loadGroupLoop self group w group []

/-- The run numbers of the rows of a group, in the order of the rows. -/
def runNumbers (group : GroupData) : List QString :=
  group.map (fun row => row.2.headD "")

/-- The state after the runs of a list were loaded one after the other as
event data. -/
def afterEventLoads {World : Type} (self : Presenter World) (w : World)
    (runs : List QString) : World :=
  runs.foldl (fun w run => (self.loadEventRun w run).1) w

/-- The state after the runs of a list were loaded one after the other as
non-event data. -/
def afterNonEventLoads {World : Type} (self : Presenter World) (w : World)
    (runs : List QString) : World :=
  runs.foldl (fun w run => self.loadNonEventRun w run) w

/-- The set `loadedRuns` after the runs of a list were inserted into it. -/
def insertRuns (runs : List QString) (loadedRuns : List QString) : List QString :=
  runs.foldl (fun loadedRuns run => set_insert run loadedRuns) loadedRuns

/-- A presenter for evaluating `loadGroup`, over a state that is the log of
the actions taken: no run is in the data service, every load is logged, and
run `2` cannot be loaded by `LoadEventNexus`. -/
def samplePresenter : Presenter (List String) :=
  { getProcessInstrument := fun _ => "INTER"
    findRunInADS := fun _ run pfx => (pfx ++ run, false)
    workspaceExists := fun _ _ => false
    retrieveWorkspace := fun _ _ => false
    executeLoad := fun w loader fileName _ _ =>
      (w ++ [loader ++ " " ++ fileName],
       !(decide (loader = "LoadEventNexus") && decide (fileName = "INTER2")))
    remove := fun w name => w ++ ["remove " ++ name]
    m_loader := "Load" }

end Presenter

end CustomInterfaces

end MantidQt

namespace Mantid

namespace WorkflowAlgorithms

/-! ### WorkflowAlgorithms/DgsReduction.cpp -/

open Mantid.Algorithms (StdString)

/-- What `DgsReduction::loadInputData` uses of the algorithm and its
surroundings, for a type `W` of workspaces: the values of the properties, the
name of the facility, and the inherited method `load` (a null pointer is
`none`). -/
structure DgsReduction (W : Type) where
  getPropertyValue : StdString → StdString
  facility : StdString
  load : StdString → Option W

namespace DgsReduction

/-- The external actions of `loadInputData`, in the order they happen (the
log message is left out). -/
inductive Effect where
  | load (inputData : StdString)
  | setLoadAlg (alg : StdString)
  | declareProperty (name value : StdString)
  deriving DecidableEq, Repr

/-- How a call of `loadInputData` ends: it returns a workspace pointer (`none`
is the null pointer) or throws `std::runtime_error`. -/
inductive Outcome (W : Type) where
  | returned (inputWS : Option W)
  | runtime_error (what : StdString)

/-- The result of `loadInputData`: the external actions and the outcome. -/
structure LoadResult (W : Type) where
  effects : List Effect
  outcome : Outcome W

/-- The method `loadInputData(prop, mustLoad)` (lines 376-449). -/
def loadInputData {W : Type} (self : DgsReduction W) (prop : StdString)
    (mustLoad : Bool) : LoadResult W :=
  let inFileProp := prop ++ "InputFile".toList
  let inWsProp := prop ++ "InputWorkspace".toList
  let inputData := self.getPropertyValue inFileProp
  let inputWSName := self.getPropertyValue inWsProp
  if inputWSName ≠ [] ∧ inputData ≠ [] then
    if mustLoad then
      { effects := []
        outcome := Outcome.runtime_error
          ("DgsReduction: Either the ".toList ++ inFileProp ++ " property or ".toList
            ++ inWsProp ++ " property must be provided, NOT BOTH!".toList) }
    else { effects := [], outcome := Outcome.returned none }
  else if inputWSName ≠ [] then
    { effects := [Effect.load inputWSName], outcome := Outcome.returned (self.load inputWSName) }
  else if inputData ≠ [] then
    let declared : Effect :=
      if "SNS".toList = self.facility then
        Effect.declareProperty (prop ++ "MonitorFilename".toList) inputData
      else
        let detCalFileFromAlg := self.getPropertyValue "DetCalFilename".toList
        let detCalFilename := if detCalFileFromAlg ≠ [] then detCalFileFromAlg else inputData
        Effect.declareProperty (prop ++ "DetCalFilename".toList) detCalFilename
    { effects := [Effect.setLoadAlg "Load".toList, declared, Effect.load inputData]
      outcome := Outcome.returned (self.load inputData) }
  else
    if mustLoad then
      { effects := []
        outcome := Outcome.runtime_error
          ("DgsReduction: Either the ".toList ++ inFileProp ++ " property or ".toList
            ++ inWsProp ++ " property must be provided!".toList) }
    else { effects := [], outcome := Outcome.returned none }

/-- A stand-in for the algorithm, for evaluating `loadInputData`: the
property values come from a table (a missing name is empty), the facility is
ISIS, and `load` gives the name back as the workspace. -/
def sampleAlgorithm (table : List (StdString × StdString)) :
    DgsReduction StdString :=
  { getPropertyValue := fun name => ((table.find? (fun e => decide (e.1 = name))).map Prod.snd).getD []
    facility := "ISIS".toList
    load := fun name => some name }

end DgsReduction

end WorkflowAlgorithms

end Mantid

/-! ## Theorems -/

namespace Mantid

namespace RalNlls

/-- C1: for every `normf`, `normfnew`, `md` and options, `calculate_rho` gives
the ratio of the actual reduction `(normf² - normfnew²)/2` to the predicted
reduction `(normf² - md²)/2` when the predicted reduction is positive, and
`-1` when the predicted reduction is `≤ 0`, whatever the actual reduction. -/
theorem calculate_rho_ratio_or_minus_one (normf normfnew md : ℚ)
    (options : nlls_options) :
    (0 < (normf ^ 2 - md ^ 2) / 2 →
        calculate_rho normf normfnew md options
          = ((normf ^ 2 - normfnew ^ 2) / 2) / ((normf ^ 2 - md ^ 2) / 2)) ∧
    ((normf ^ 2 - md ^ 2) / 2 ≤ 0 →
        calculate_rho normf normfnew md options = -1) := by
  constructor
  · intro hpos
    simp only [calculate_rho]
    rw [if_neg (not_le.mpr hpos)]
  · intro hnonpos
    simp only [calculate_rho]
    rw [if_pos hnonpos]

/-- C1, at concrete inputs: a positive predicted reduction gives the ratio
`5/8`; a non-positive predicted reduction gives `-1` both for an actual
increase and for an actual decrease. -/
theorem calculate_rho_ratio_or_minus_one_witness :
    calculate_rho 3 2 1 (nlls_options.init 0) = ((3 ^ 2 - 2 ^ 2) / 2) / ((3 ^ 2 - 1 ^ 2) / 2)
    ∧ calculate_rho 1 3 2 (nlls_options.init 0) = -1
    ∧ calculate_rho 2 1 3 (nlls_options.init 0) = -1 :=
  ⟨(calculate_rho_ratio_or_minus_one 3 2 1 (nlls_options.init 0)).1 (by norm_num),
   (calculate_rho_ratio_or_minus_one 1 3 2 (nlls_options.init 0)).2 (by norm_num),
   (calculate_rho_ratio_or_minus_one 2 1 3 (nlls_options.init 0)).2 (by norm_num)⟩

/-- C4: for every `normJF`, `normJF0` and options, `test_convergence` sets
`inform.convergence_normg` when
`normJF ≤ max(stop_g_absolute, stop_g_relative * normJF0)`. -/
theorem test_convergence_sets_normg (normF normJF normF0 normJF0 : ℚ)
    (options : nlls_options) (inform : nlls_inform)
    (hsmall : normJF ≤ max options.stop_g_absolute (options.stop_g_relative * normJF0)) :
    (test_convergence normF normJF normF0 normJF0 options inform).convergence_normg = 1 := by
  simp only [test_convergence, if_pos hsmall]

/-- C4, at a concrete input: a gradient norm `1e-6` is below the default
absolute tolerance `1e-5`, and the flag is set. -/
theorem test_convergence_sets_normg_witness :
    (1 / 1000000 : ℚ) ≤ max (nlls_options.init 0).stop_g_absolute
        ((nlls_options.init 0).stop_g_relative * 1)
    ∧ (test_convergence 1 (1 / 1000000) 1 1 (nlls_options.init 0)
        (nlls_inform.init 0 0)).convergence_normg = 1 :=
  ⟨by norm_num [nlls_options.init, tenm5, tenm8],
   test_convergence_sets_normg 1 (1 / 1000000) 1 1 (nlls_options.init 0)
     (nlls_inform.init 0 0) (by norm_num [nlls_options.init, tenm5, tenm8])⟩

/-- C5: for every problem with `n > m`, whatever the callbacks, the solve
ends with `inform.status = N_GT_M` and has called no callback. -/
theorem nlls_solve_n_gt_m {X F J P : Type} (n m : Int) (x : X)
    (eval_f : Int → Int → X → P → Int × F)
    (eval_j : Int → Int → X → P → Int × J)
    (params : P) (options : nlls_options) (inform : nlls_inform)
    (message : NLLS_ERROR → String)
    (iterating : X → F → J → nlls_inform → List Callback → SolveResult X)
    (hnm : n > m) :
    (nlls_solve n m x eval_f eval_j params options inform message iterating).inform.status
        = NLLS_ERROR.N_GT_M
    ∧ (nlls_solve n m x eval_f eval_j params options inform message iterating).calls = [] := by
  simp only [nlls_solve, if_pos hnm, and_self]

/-- C5, at a concrete input: three parameters, two residuals, callbacks that
would succeed and an ITERATING state that would record a call of each
callback. -/
theorem nlls_solve_n_gt_m_witness :
    (3 : Int) > 2
    ∧ (nlls_solve 3 2 [(0 : ℚ), 0, 0]
          (fun _ _ _ (_ : Unit) => ((0 : Int), [(1 : ℚ), 1]))
          (fun _ _ _ (_ : Unit) => ((0 : Int), [[(1 : ℚ)]]))
          () (nlls_options.init 0) (nlls_inform.init 0 0) NLLS_ERROR.ident
          (fun x _ _ inform calls =>
            { x := x, inform := inform,
              calls := calls ++ [Callback.eval_hf, Callback.eval_f, Callback.eval_j] })).inform.status
        = NLLS_ERROR.N_GT_M
    ∧ (nlls_solve 3 2 [(0 : ℚ), 0, 0]
          (fun _ _ _ (_ : Unit) => ((0 : Int), [(1 : ℚ), 1]))
          (fun _ _ _ (_ : Unit) => ((0 : Int), [[(1 : ℚ)]]))
          () (nlls_options.init 0) (nlls_inform.init 0 0) NLLS_ERROR.ident
          (fun x _ _ inform calls =>
            { x := x, inform := inform,
              calls := calls ++ [Callback.eval_hf, Callback.eval_f, Callback.eval_j] })).calls
        = [] :=
  ⟨by decide,
   nlls_solve_n_gt_m 3 2 [(0 : ℚ), 0, 0]
     (fun _ _ _ (_ : Unit) => ((0 : Int), [(1 : ℚ), 1]))
     (fun _ _ _ (_ : Unit) => ((0 : Int), [[(1 : ℚ)]]))
     () (nlls_options.init 0) (nlls_inform.init 0 0) NLLS_ERROR.ident
     (fun x _ _ inform calls =>
       { x := x, inform := inform,
         calls := calls ++ [Callback.eval_hf, Callback.eval_f, Callback.eval_j] })
     (by decide)⟩

/-- C6, as stated, fails: the enumerator `FIND_BETA` of `NLLS_ERROR` is not a
status of the taxonomy, so not every enumerator is one of the listed
statuses. -/
theorem taxonomy_misses_FIND_BETA :
    ¬ ((∀ e : NLLS_ERROR, e.ident ∈ taxonomy)
        ∧ (∀ s : String, s ∈ taxonomy → ∃ e : NLLS_ERROR, e.ident = s)) := by
  intro h
  have hmem := h.1 NLLS_ERROR.FIND_BETA
  simp [taxonomy, NLLS_ERROR.ident] at hmem

/-- C6, amended: every status of the taxonomy is an enumerator of
`NLLS_ERROR`, and every enumerator of `NLLS_ERROR` other than `FIND_BETA`
(value -11) is a status of the taxonomy. -/
theorem taxonomy_is_NLLS_ERROR_but_FIND_BETA :
    (∀ e : NLLS_ERROR, e = NLLS_ERROR.FIND_BETA ∨ e.ident ∈ taxonomy)
    ∧ (∀ s : String, s ∈ taxonomy → ∃ e : NLLS_ERROR, e.ident = s)
    ∧ NLLS_ERROR.FIND_BETA.ident ∉ taxonomy
    ∧ NLLS_ERROR.FIND_BETA.value = -11 := by
  refine ⟨?_, ?_, ?_, rfl⟩
  · intro e
    cases e <;> simp [taxonomy, NLLS_ERROR.ident]
  · intro s hs
    simp only [taxonomy, List.mem_cons, List.mem_singleton, List.not_mem_nil, or_false] at hs
    rcases hs with h | h | h | h | h | h | h | h | h | h | h | h | h | h | h | h | h | h
    · exact ⟨NLLS_ERROR.OK, h.symm⟩
    · exact ⟨NLLS_ERROR.MAXITS, h.symm⟩
    · exact ⟨NLLS_ERROR.MAX_TR_REDUCTIONS, h.symm⟩
    · exact ⟨NLLS_ERROR.EVALUATION, h.symm⟩
    · exact ⟨NLLS_ERROR.FROM_EXTERNAL, h.symm⟩
    · exact ⟨NLLS_ERROR.UNSUPPORTED_MODEL, h.symm⟩
    · exact ⟨NLLS_ERROR.UNSUPPORTED_METHOD, h.symm⟩
    · exact ⟨NLLS_ERROR.N_GT_M, h.symm⟩
    · exact ⟨NLLS_ERROR.BAD_TR_STRATEGY, h.symm⟩
    · exact ⟨NLLS_ERROR.BAD_SCALING, h.symm⟩
    · exact ⟨NLLS_ERROR.ALLOCATION, h.symm⟩
    · exact ⟨NLLS_ERROR.X_NO_PROGRESS, h.symm⟩
    · exact ⟨NLLS_ERROR.DOGLEG_MODEL, h.symm⟩
    · exact ⟨NLLS_ERROR.AINT_EIG_IMAG, h.symm⟩
    · exact ⟨NLLS_ERROR.AINT_EIG_ODD, h.symm⟩
    · exact ⟨NLLS_ERROR.MS_MAXITS, h.symm⟩
    · exact ⟨NLLS_ERROR.MS_TOO_MANY_SHIFTS, h.symm⟩
    · exact ⟨NLLS_ERROR.MS_NO_PROGRESS, h.symm⟩
  · simp [taxonomy, NLLS_ERROR.ident]

/-- C6, amended, at concrete inputs: the status `N_GT_M` of the taxonomy is
an enumerator, and the enumerator `MS_MAXITS` is a status of the taxonomy. -/
theorem taxonomy_is_NLLS_ERROR_but_FIND_BETA_witness :
    (∃ e : NLLS_ERROR, e.ident = "N_GT_M")
    ∧ (NLLS_ERROR.MS_MAXITS = NLLS_ERROR.FIND_BETA ∨ NLLS_ERROR.MS_MAXITS.ident ∈ taxonomy) :=
  ⟨taxonomy_is_NLLS_ERROR_but_FIND_BETA.2.1 "N_GT_M" (by simp [taxonomy]),
   taxonomy_is_NLLS_ERROR_but_FIND_BETA.1 NLLS_ERROR.MS_MAXITS⟩

/-- C7, on the code: a default-initialised `nlls_inform` has status `OK`, an
empty error message, and zero `f_eval`, `g_eval`, `h_eval`,
`convergence_normf` and `convergence_normg`; its `iter`, which has no
initializer, holds whatever value the storage held, for instance `7`, and is
then not `0`. -/
theorem nlls_inform_init_iter_uninitialised (HUGE : ℚ) (indeterminate : Int) :
    (nlls_inform.init HUGE indeterminate).status = NLLS_ERROR.OK
    ∧ (nlls_inform.init HUGE indeterminate).error_message = ""
    ∧ (nlls_inform.init HUGE indeterminate).f_eval = 0
    ∧ (nlls_inform.init HUGE indeterminate).g_eval = 0
    ∧ (nlls_inform.init HUGE indeterminate).h_eval = 0
    ∧ (nlls_inform.init HUGE indeterminate).convergence_normf = 0
    ∧ (nlls_inform.init HUGE indeterminate).convergence_normg = 0
    ∧ (nlls_inform.init HUGE indeterminate).iter = indeterminate
    ∧ (nlls_inform.init HUGE 7).iter ≠ 0 := by
  refine ⟨rfl, rfl, rfl, rfl, rfl, rfl, rfl, rfl, ?_⟩
  simp [nlls_inform.init]

end RalNlls

end Mantid

namespace Mantid

namespace Algorithms

namespace MuonAsymmetryCalc

/-- The loop body changes the length of neither output vector. -/
theorem loopBody_length (sqrt : ℚ → ℚ) (alpha : ℚ) (tmp : MatrixWorkspace)
    (fwd bwd : Int) (out : OutputWorkspace) (j : Nat) :
    (loopBody sqrt alpha tmp fwd bwd out j).dataY0.length = out.dataY0.length
    ∧ (loopBody sqrt alpha tmp fwd bwd out j).dataE0.length = out.dataE0.length := by
  simp [loopBody]

/-- The loop over the first `n` bins changes the length of neither output
vector. -/
theorem loop_length (sqrt : ℚ → ℚ) (alpha : ℚ) (tmp : MatrixWorkspace)
    (fwd bwd : Int) (out : OutputWorkspace) (n : Nat) :
    ((List.range n).foldl (loopBody sqrt alpha tmp fwd bwd) out).dataY0.length
        = out.dataY0.length
    ∧ ((List.range n).foldl (loopBody sqrt alpha tmp fwd bwd) out).dataE0.length
        = out.dataE0.length := by
  induction n with
  | zero => simp
  | succ n ih =>
    rw [List.range_succ, List.foldl_append]
    simp only [List.foldl_cons, List.foldl_nil]
    exact ⟨(loopBody_length sqrt alpha tmp fwd bwd _ n).1.trans ih.1,
           (loopBody_length sqrt alpha tmp fwd bwd _ n).2.trans ih.2⟩

/-- After the loop over the first `n` bins, every bin `j < n` inside the
output vectors holds the values the body computes for it. -/
theorem loop_getElem (sqrt : ℚ → ℚ) (alpha : ℚ) (tmp : MatrixWorkspace)
    (fwd bwd : Int) (out : OutputWorkspace) (n j : Nat) (hj : j < n)
    (hY : j < out.dataY0.length) (hE : j < out.dataE0.length) :
    ((List.range n).foldl (loopBody sqrt alpha tmp fwd bwd) out).dataY0[j]?
        = some (binY alpha (tmp.dataY fwd j) (tmp.dataY bwd j))
    ∧ ((List.range n).foldl (loopBody sqrt alpha tmp fwd bwd) out).dataE0[j]?
        = some (binE sqrt alpha (tmp.dataY fwd j) (tmp.dataY bwd j)) := by
  induction n with
  | zero => exact absurd hj (Nat.not_lt_zero j)
  | succ n ih =>
    rw [List.range_succ, List.foldl_append]
    simp only [List.foldl_cons, List.foldl_nil]
    have hlen := loop_length sqrt alpha tmp fwd bwd out n
    by_cases hjn : j = n
    · subst hjn
      constructor
      · simp only [loopBody]
        exact List.getElem?_set_self (by rw [hlen.1]; exact hY)
      · simp only [loopBody]
        exact List.getElem?_set_self (by rw [hlen.2]; exact hE)
    · have hlt : j < n := by omega
      have ih2 := ih hlt
      constructor
      · simp only [loopBody]
        rw [List.getElem?_set_ne (Ne.symm hjn)]
        exact ih2.1
      · simp only [loopBody]
        rw [List.getElem?_set_ne (Ne.symm hjn)]
        exact ih2.2

/-- C8: for every time bin `j` (of the loop and of the output vector),
`MuonAsymmetryCalc::exec` writes the count `(F - a*B)/(F + a*B)`, where `F`
and `B` are the forward and backward counts in bin `j` and `a` is `Alpha`,
and writes `0` when `F + a*B = 0`, in which case the output error is `1`. -/
theorem exec_writes_asymmetry (sqrt : ℚ → ℚ)
    (GroupDetectors : MatrixWorkspace → List Int → MatrixWorkspace)
    (forward_list backward_list : List Int) (alpha : ℚ)
    (inputWS : MatrixWorkspace) (j : Nat)
    (hj : j < (tmpWS GroupDetectors forward_list backward_list inputWS).blocksize)
    (hout : j < inputWS.blocksize) :
    (exec sqrt GroupDetectors forward_list backward_list alpha inputWS).dataY0[j]?
        = some
            (if forwardCount GroupDetectors forward_list backward_list inputWS j
                  + alpha * backwardCount GroupDetectors forward_list backward_list inputWS j = 0
             then 0
             else
               (forwardCount GroupDetectors forward_list backward_list inputWS j
                  - alpha * backwardCount GroupDetectors forward_list backward_list inputWS j)
               / (forwardCount GroupDetectors forward_list backward_list inputWS j
                  + alpha * backwardCount GroupDetectors forward_list backward_list inputWS j))
    ∧ (forwardCount GroupDetectors forward_list backward_list inputWS j
          + alpha * backwardCount GroupDetectors forward_list backward_list inputWS j = 0 →
        (exec sqrt GroupDetectors forward_list backward_list alpha inputWS).dataE0[j]?
          = some 1) := by
  have hloop := loop_getElem sqrt alpha
    (tmpWS GroupDetectors forward_list backward_list inputWS)
    (forward forward_list backward_list) (backward forward_list backward_list)
    { dataX0 := [], dataY0 := List.replicate inputWS.blocksize 0,
      dataE0 := List.replicate inputWS.blocksize 0 }
    (tmpWS GroupDetectors forward_list backward_list inputWS).blocksize j hj
    (by simpa using hout) (by simpa using hout)
  constructor
  · simp only [exec]
    rw [hloop.1]
    simp only [binY, forwardCount, backwardCount, ne_eq, ite_not]
  · intro hzero
    simp only [exec]
    rw [hloop.2]
    simp only [forwardCount, backwardCount] at hzero
    simp only [binE, ne_eq, hzero, not_true_eq_false, if_false]

/-- C8, at a concrete input: on the two-bin sample workspace with `Alpha = 1`
and spectra 0 and 1, bin 0 (`F = 3`, `B = 1`) gets `1/2`, and bin 1
(`F = B = 0`) gets the count `0` and the error `1`. -/
theorem exec_writes_asymmetry_witness :
    (exec (fun q => q) (fun ws _ => ws) [0] [1] 1 sampleWS).dataY0[0]? = some (1 / 2)
    ∧ (exec (fun q => q) (fun ws _ => ws) [0] [1] 1 sampleWS).dataY0[1]? = some 0
    ∧ (exec (fun q => q) (fun ws _ => ws) [0] [1] 1 sampleWS).dataE0[1]? = some 1 := by
  have h0 := exec_writes_asymmetry (fun q => q) (fun ws _ => ws) [0] [1] 1 sampleWS 0
    (by simp [tmpWS, sampleWS]) (by simp [sampleWS])
  have h1 := exec_writes_asymmetry (fun q => q) (fun ws _ => ws) [0] [1] 1 sampleWS 1
    (by simp [tmpWS, sampleWS]) (by simp [sampleWS])
  refine ⟨?_, ?_, ?_⟩
  · rw [h0.1]
    norm_num [forwardCount, backwardCount, tmpWS, forward, backward, sampleWS]
  · rw [h1.1]
    norm_num [forwardCount, backwardCount, tmpWS, forward, backward, sampleWS]
  · exact h1.2 (by norm_num [forwardCount, backwardCount, tmpWS, forward, backward, sampleWS])

end MuonAsymmetryCalc

end Algorithms

end Mantid

namespace Mantid

namespace Algorithms

/-- Looking up a key after an assignment: the assigned key has the new
value, every other key is as before. -/
theorem map_find_map_assign {K V : Type} [DecidableEq K] (m : List (K × V))
    (k k2 : K) (v : V) :
    map_find (map_assign m k v) k2 = if k2 = k then some v else map_find m k2 := by
  by_cases h : k2 = k
  · subst h
    simp [map_find, map_assign]
  · have hkk : ¬ k = k2 := fun e => h e.symm
    simp only [map_find, map_assign, if_neg h]
    rw [List.find?_cons_of_neg _ (by simpa using hkk)]
    congr 1
    induction m with
    | nil => rfl
    | cons e rest ih =>
      by_cases he : e.1 = k
      · have hne : ¬ e.1 = k2 := fun e2 => h (e2.symm.trans he)
        rw [List.filter_cons_of_neg (by simpa using he),
          List.find?_cons_of_neg _ (by simpa using hne)]
        exact ih
      · rw [List.filter_cons_of_pos (by simpa using he)]
        by_cases he2 : e.1 = k2
        · rw [List.find?_cons_of_pos _ (by simpa using he2),
            List.find?_cons_of_pos _ (by simpa using he2)]
        · rw [List.find?_cons_of_neg _ (by simpa using he2),
            List.find?_cons_of_neg _ (by simpa using he2)]
          exact ih

/-- The numbering loop: a name whose last occurrence in the vector is at
0-based position `i` gets the counter at entry plus `i + 1`, and a key that is
not a name of the vector keeps what the map held. -/
theorem map_find_assignGroupNumbers (vgroups : List StdString) :
    ∀ (index : Int) (group_map : List (StdString × Int)),
      (∀ (i : Nat) (name : StdString), (vgroups.map boost_trim)[i]? = some name →
          (∀ j : Nat, i < j → (vgroups.map boost_trim)[j]? ≠ some name) →
          map_find (assignGroupNumbers vgroups index group_map) name
            = some (index + 1 + (i : Int)))
      ∧ (∀ name : StdString, name ∉ vgroups.map boost_trim →
          map_find (assignGroupNumbers vgroups index group_map) name
            = map_find group_map name) := by
  induction vgroups with
  | nil =>
    intro index group_map
    exact ⟨fun i name h => by simp at h, fun name _ => rfl⟩
  | cons it rest ih =>
    intro index group_map
    have ih2 := ih (index + 1) (map_assign group_map (boost_trim it) (index + 1))
    constructor
    · intro i name hi hlast
      simp only [assignGroupNumbers]
      cases i with
      | zero =>
        simp only [List.map_cons, List.getElem?_cons_zero, Option.some.injEq] at hi
        subst hi
        have hnotin : boost_trim it ∉ rest.map boost_trim := by
          intro hmem
          obtain ⟨j, hj⟩ := List.mem_iff_getElem?.mp hmem
          exact hlast (j + 1) (Nat.succ_pos j) (by simpa using hj)
        rw [ih2.2 _ hnotin, map_find_map_assign, if_pos rfl]
        simp
      | succ i =>
        simp only [List.map_cons, List.getElem?_cons_succ] at hi
        have hlast2 : ∀ j : Nat, i < j → (rest.map boost_trim)[j]? ≠ some name := by
          intro j hij
          have := hlast (j + 1) (Nat.succ_lt_succ hij)
          simpa using this
        rw [ih2.1 i name hi hlast2]
        congr 1
        push_cast
        ring
    · intro name hname
      simp only [List.map_cons, List.mem_cons, not_or] at hname
      simp only [assignGroupNumbers]
      rw [ih2.2 name hname.2, map_find_map_assign, if_neg hname.1]

/-- An element of a list has a last occurrence. -/
theorem exists_last_occurrence {α : Type} (l : List α) (a : α) (h : a ∈ l) :
    ∃ i : Nat, l[i]? = some a ∧ ∀ j : Nat, i < j → l[j]? ≠ some a := by
  induction l with
  | nil => simp at h
  | cons b rest ih =>
    by_cases hmem : a ∈ rest
    · obtain ⟨i, hi, hlast⟩ := ih hmem
      refine ⟨i + 1, by simpa using hi, ?_⟩
      intro j hij
      cases j with
      | zero => omega
      | succ j =>
        have := hlast j (by omega)
        simpa using this
    · have hab : a = b := by
        rcases List.mem_cons.mp h with e | e
        · exact e
        · exact absurd e hmem
      refine ⟨0, by simp [hab], ?_⟩
      intro j hj
      cases j with
      | zero => omega
      | succ j =>
        intro hget
        simp only [List.getElem?_cons_succ] at hget
        exact hmem (List.mem_iff_getElem?.mpr ⟨j, hget⟩)

/-- The pop loop, read on the reversed vector, ends without running the
vector empty exactly when some name is not empty. -/
theorem popBackWhileEmptyRev_isSome (l : List StdString) (h : ∃ t ∈ l, t ≠ []) :
    ∃ v, popBackWhileEmptyRev l = some v := by
  induction l with
  | nil => obtain ⟨t, ht, _⟩ := h; simp at ht
  | cons b rest ih =>
    by_cases hb : b = []
    · simp only [popBackWhileEmptyRev, if_pos hb]
      apply ih
      obtain ⟨t, ht, hne⟩ := h
      rcases List.mem_cons.mp ht with e | hmem
      · exact absurd (e.trans hb) hne
      · exact ⟨t, hmem, hne⟩
    · exact ⟨b :: rest, by simp only [popBackWhileEmptyRev, if_neg hb]⟩

/-- Splitting a text that holds a character other than a separator yields a
token that is not empty. -/
theorem boost_split_has_name (isSep : Char → Bool) (s : StdString)
    (h : ∃ c ∈ s, isSep c = false) : ∃ t ∈ boost_split isSep s, t ≠ [] := by
  induction s with
  | nil => obtain ⟨c, hc, _⟩ := h; simp at hc
  | cons c cs ih =>
    by_cases hsep : isSep c = true
    · simp only [boost_split, if_pos hsep]
      obtain ⟨d, hd, hdsep⟩ := h
      rcases List.mem_cons.mp hd with e | hmem
      · subst e; rw [hsep] at hdsep; cases hdsep
      · obtain ⟨t, ht, hne⟩ := ih ⟨d, hmem, hdsep⟩
        exact ⟨t, List.mem_cons_of_mem _ ht, hne⟩
    · simp only [boost_split, if_neg hsep]
      cases boost_split isSep cs with
      | nil => exact ⟨[c], by simp, by simp⟩
      | cons t ts => exact ⟨c :: t, by simp, by simp⟩

/-- The pop loop, read on the reversed vector, removes exactly the leading
empty names: what is left starts with a name that is not empty. -/
theorem popBackWhileEmptyRev_eq_some (l v : List StdString)
    (h : popBackWhileEmptyRev l = some v) :
    (∃ k : Nat, l = List.replicate k [] ++ v) ∧ v.head? ≠ some [] ∧ v ≠ [] := by
  induction l with
  | nil => simp [popBackWhileEmptyRev] at h
  | cons b rest ih =>
    by_cases hb : b = []
    · simp only [popBackWhileEmptyRev, if_pos hb] at h
      obtain ⟨⟨k, hk⟩, hhead, hne⟩ := ih h
      refine ⟨⟨k + 1, ?_⟩, hhead, hne⟩
      rw [hb, hk, List.replicate_succ, List.cons_append]
    · simp only [popBackWhileEmptyRev, if_neg hb, Option.some.injEq] at h
      subst h
      exact ⟨⟨0, by simp⟩, by simpa using hb, by simp⟩

/-- C9: when `GroupNames` holds a character other than a separator, the pop
loop of `makeGroupingByNames` ends and leaves the vector `vgroups` of the
tokens of `GroupNames` (split on `,`, `/`, `*`) without the trailing empty
ones, and, sorting off, a group map is built in which a trimmed name has the
number `i` exactly when its last occurrence is at 1-based position `i`; when
the trimmed names are pairwise distinct, the name at 1-based position `i` has
the number `i` and the map holds nothing else, so that `k` names receive
exactly `1..k`. -/
theorem makeGroupingByNames_numbers_in_order (sort : List StdString → List StdString)
    (GroupNames : StdString)
    (hname : ∃ c ∈ GroupNames, is_any_of_separators c = false) :
    ∃ (vgroups : List StdString) (group_map : List (StdString × Int)),
      popBackWhileEmpty (boost_split is_any_of_separators GroupNames) = some vgroups
      ∧ (∃ k : Nat, boost_split is_any_of_separators GroupNames
            = vgroups ++ List.replicate k [])
      ∧ vgroups.getLast? ≠ some []
      ∧ makeGroupingByNames_group_map sort GroupNames false = some group_map
      ∧ (∀ (name : StdString) (number : Int),
            map_find group_map name = some number ↔
              ∃ i : Nat, (vgroups.map boost_trim)[i]? = some name
                ∧ number = (i : Int) + 1
                ∧ ∀ j : Nat, i < j → (vgroups.map boost_trim)[j]? ≠ some name)
      ∧ ((vgroups.map boost_trim).Nodup →
          ∀ (name : StdString) (number : Int),
            map_find group_map name = some number ↔
              ∃ i : Nat, (vgroups.map boost_trim)[i]? = some name
                ∧ number = (i : Int) + 1) := by
  obtain ⟨t, ht, hne⟩ := boost_split_has_name is_any_of_separators GroupNames hname
  obtain ⟨v, hv⟩ := popBackWhileEmptyRev_isSome
    (boost_split is_any_of_separators GroupNames).reverse ⟨t, List.mem_reverse.mpr ht, hne⟩
  obtain ⟨⟨k, hk⟩, hhead, _⟩ := popBackWhileEmptyRev_eq_some _ _ hv
  have hpop : popBackWhileEmpty (boost_split is_any_of_separators GroupNames)
      = some v.reverse := by
    simp only [popBackWhileEmpty, hv, Option.map_some']
  have hloop := map_find_assignGroupNumbers v.reverse 0 []
  have hgeneral : ∀ (name : StdString) (number : Int),
      map_find (assignGroupNumbers v.reverse 0 []) name = some number ↔
        ∃ i : Nat, (v.reverse.map boost_trim)[i]? = some name
          ∧ number = (i : Int) + 1
          ∧ ∀ j : Nat, i < j → (v.reverse.map boost_trim)[j]? ≠ some name := by
    intro name number
    constructor
    · intro hfind
      by_cases hmem : name ∈ v.reverse.map boost_trim
      · obtain ⟨i, hi, hlast⟩ := exists_last_occurrence _ name hmem
        refine ⟨i, hi, ?_, hlast⟩
        rw [hloop.1 i name hi hlast] at hfind
        have := Option.some.inj hfind
        omega
      · rw [hloop.2 name hmem] at hfind
        simp [map_find] at hfind
    · rintro ⟨i, hi, hnum, hlast⟩
      rw [hloop.1 i name hi hlast, hnum]
      congr 1
      omega
  refine ⟨v.reverse, assignGroupNumbers v.reverse 0 [], hpop, ⟨k, ?_⟩, ?_, ?_, hgeneral, ?_⟩
  · have := congrArg List.reverse hk
    simpa using this
  · simpa [List.getLast?_reverse] using hhead
  · simp only [makeGroupingByNames_group_map, groupVector, hpop, Bool.false_eq_true, if_false]
  · intro hnodup name number
    rw [hgeneral name number]
    constructor
    · rintro ⟨i, hi, hnum, _⟩
      exact ⟨i, hi, hnum⟩
    · rintro ⟨i, hi, hnum⟩
      refine ⟨i, hi, hnum, ?_⟩
      intro j hij hj
      have hjlt : j < (v.reverse.map boost_trim).length := by
        by_contra hge
        rw [List.getElem?_eq_none (by omega)] at hj
        cases hj
      exact List.nodup_iff_getElem?_ne_getElem?.mp hnodup i j hij hjlt (hi.trans hj.symm)

/-- C9, at a concrete input: for `bank1, bank2/bank3,` the vector is the
three names, they are distinct after trimming, and the second name `bank2`
has the number 2. -/
theorem makeGroupingByNames_numbers_in_order_witness :
    ∃ group_map : List (StdString × Int),
      makeGroupingByNames_group_map id "bank1, bank2/bank3,".toList false = some group_map
      ∧ map_find group_map "bank1".toList = some 1
      ∧ map_find group_map "bank2".toList = some 2
      ∧ map_find group_map "bank3".toList = some 3 := by
  obtain ⟨vgroups, group_map, hv, _, _, hgm, _, h⟩ :=
    makeGroupingByNames_numbers_in_order id "bank1, bank2/bank3,".toList
      ⟨'b', by decide, by decide⟩
  have hv2 : popBackWhileEmpty (boost_split is_any_of_separators "bank1, bank2/bank3,".toList)
      = some ["bank1".toList, " bank2".toList, "bank3".toList] := by decide
  rw [hv2] at hv
  cases hv
  have hall := h (by decide)
  exact ⟨group_map, hgm, (hall _ _).2 ⟨0, by decide, by norm_num⟩,
    (hall _ _).2 ⟨1, by decide, by norm_num⟩, (hall _ _).2 ⟨2, by decide, by norm_num⟩⟩

/-- The count of instrument sources is never negative. -/
theorem numParams_nonneg (p : Properties) : 0 ≤ numParams p := by
  unfold numParams
  split <;> split <;> split <;> decide

/-- The grouping step of `exec` never ends in `invalid_argument`. -/
theorem fillGroups_not_invalid_argument
    (sort : List StdString → List StdString)
    (walk : List (StdString × Int) → Instrument → List (Int × Int) → List (Int × Int))
    (readGroupingFile : StdString → Option (List (Int × Int)))
    (inst : Instrument) (OldCalFilename GroupNames : StdString) (sortnames : Bool)
    (what : String) :
    (fillGroups sort walk readGroupingFile inst OldCalFilename GroupNames sortnames).2
      ≠ Outcome.invalid_argument what := by
  unfold fillGroups
  split
  · split <;> simp
  · split
    · split <;> simp
    · simp

/-- C10: `CreateGroupingWorkspace::exec` raises `invalid_argument` if and only
if the number of instrument sources supplied is not exactly one, or
`OldCalFilename` and `GroupNames` are both non-empty; when it does, no
instrument has been loaded and no output created, and when it does not, the
output is created. -/
theorem exec_invalid_argument_iff
    (LoadInstrument : StdString → StdString → Instrument)
    (sort : List StdString → List StdString)
    (walk : List (StdString × Int) → Instrument → List (Int × Int) → List (Int × Int))
    (readGroupingFile : StdString → Option (List (Int × Int)))
    (p : Properties) :
    ((∃ what : String,
        (exec LoadInstrument sort walk readGroupingFile p).outcome
          = Outcome.invalid_argument what)
      ↔ (numParams p ≠ 1 ∨ (p.OldCalFilename ≠ [] ∧ p.GroupNames ≠ [])))
    ∧ ((numParams p ≠ 1 ∨ (p.OldCalFilename ≠ [] ∧ p.GroupNames ≠ [])) →
        (exec LoadInstrument sort walk readGroupingFile p).effects = [])
    ∧ (¬ (numParams p ≠ 1 ∨ (p.OldCalFilename ≠ [] ∧ p.GroupNames ≠ [])) →
        Effect.createOutput ∈ (exec LoadInstrument sort walk readGroupingFile p).effects) := by
  have hnn := numParams_nonneg p
  by_cases h1 : numParams p > 1
  · have hc : numParams p ≠ 1 ∨ (p.OldCalFilename ≠ [] ∧ p.GroupNames ≠ []) :=
      Or.inl (by omega)
    refine ⟨⟨fun _ => hc, fun _ => ?_⟩, fun _ => ?_, fun hn => absurd hc hn⟩
    · simp only [exec, if_pos h1]
      exact ⟨_, rfl⟩
    · simp only [exec, if_pos h1]
  · by_cases h0 : numParams p = 0
    · have hc : numParams p ≠ 1 ∨ (p.OldCalFilename ≠ [] ∧ p.GroupNames ≠ []) :=
        Or.inl (by omega)
      refine ⟨⟨fun _ => hc, fun _ => ?_⟩, fun _ => ?_, fun hn => absurd hc hn⟩
      · simp only [exec, if_neg h1, if_pos h0]
        exact ⟨_, rfl⟩
      · simp only [exec, if_neg h1, if_pos h0]
    · by_cases h2 : p.OldCalFilename ≠ [] ∧ p.GroupNames ≠ []
      · have hc : numParams p ≠ 1 ∨ (p.OldCalFilename ≠ [] ∧ p.GroupNames ≠ []) :=
          Or.inr h2
        refine ⟨⟨fun _ => hc, fun _ => ?_⟩, fun _ => ?_, fun hn => absurd hc hn⟩
        · simp only [exec, if_neg h1, if_neg h0, if_pos h2]
          exact ⟨_, rfl⟩
        · simp only [exec, if_neg h1, if_neg h0, if_pos h2]
      · have hnc : ¬ (numParams p ≠ 1 ∨ (p.OldCalFilename ≠ [] ∧ p.GroupNames ≠ [])) := by
          rintro (h | h)
          · omega
          · exact h2 h
        refine ⟨⟨?_, fun hc => absurd hc hnc⟩, fun hc => absurd hc hnc, fun _ => ?_⟩
        · rintro ⟨what, hwhat⟩
          simp only [exec, if_neg h1, if_neg h0, if_neg h2] at hwhat
          exact absurd hwhat (fillGroups_not_invalid_argument _ _ _ _ _ _ _ what)
        · simp only [exec, if_neg h1, if_neg h0, if_neg h2]
          simp

/-- C10, at concrete inputs: with no instrument source, and with one source
but both a .cal file and group names, `exec` raises `invalid_argument` having
done nothing; with the instrument name alone and two group names it does not
raise and creates the output. -/
theorem exec_invalid_argument_iff_witness :
    ((∃ what : String,
        (exec sampleLoadInstrument id (fun _ _ d => d) (fun _ => none)
          (sampleProperties [] [] "a,b".toList)).outcome = Outcome.invalid_argument what)
      ∧ (exec sampleLoadInstrument id (fun _ _ d => d) (fun _ => none)
          (sampleProperties [] [] "a,b".toList)).effects = [])
    ∧ ((∃ what : String,
        (exec sampleLoadInstrument id (fun _ _ d => d) (fun _ => none)
          (sampleProperties "SNAP".toList "f.cal".toList "a,b".toList)).outcome
            = Outcome.invalid_argument what)
      ∧ (exec sampleLoadInstrument id (fun _ _ d => d) (fun _ => none)
          (sampleProperties "SNAP".toList "f.cal".toList "a,b".toList)).effects = [])
    ∧ ((¬ ∃ what : String,
        (exec sampleLoadInstrument id (fun _ _ d => d) (fun _ => none)
          (sampleProperties "SNAP".toList [] "a,b".toList)).outcome
            = Outcome.invalid_argument what)
      ∧ Effect.createOutput ∈
        (exec sampleLoadInstrument id (fun _ _ d => d) (fun _ => none)
          (sampleProperties "SNAP".toList [] "a,b".toList)).effects) :=
  ⟨⟨(exec_invalid_argument_iff sampleLoadInstrument id (fun _ _ d => d) (fun _ => none)
        (sampleProperties [] [] "a,b".toList)).1.2 (by decide),
    (exec_invalid_argument_iff sampleLoadInstrument id (fun _ _ d => d) (fun _ => none)
        (sampleProperties [] [] "a,b".toList)).2.1 (by decide)⟩,
   ⟨(exec_invalid_argument_iff sampleLoadInstrument id (fun _ _ d => d) (fun _ => none)
        (sampleProperties "SNAP".toList "f.cal".toList "a,b".toList)).1.2 (by decide),
    (exec_invalid_argument_iff sampleLoadInstrument id (fun _ _ d => d) (fun _ => none)
        (sampleProperties "SNAP".toList "f.cal".toList "a,b".toList)).2.1 (by decide)⟩,
   ⟨fun h => absurd
      ((exec_invalid_argument_iff sampleLoadInstrument id (fun _ _ d => d) (fun _ => none)
        (sampleProperties "SNAP".toList [] "a,b".toList)).1.1 h) (by decide),
    (exec_invalid_argument_iff sampleLoadInstrument id (fun _ _ d => d) (fun _ => none)
        (sampleProperties "SNAP".toList [] "a,b".toList)).2.2 (by decide)⟩⟩

end Algorithms

end Mantid

namespace MantidQt

namespace MantidWidgets

namespace Batch

/-- What an initialized result of the extraction loop tells: every row is
either still to be consumed or has become a node; the rows left are a tail of
the rows given; a result flagged finished stands at the end of the rows or at
a row shallower than the root; a result not flagged finished stands at a row
shallower than `minDepth`. -/
theorem extractSubtreeLoop_positions {Row : Type} :
    ∀ (fuel : Nat) (subtree : Subtree Row) (root parent : RowLocation)
      (minDepth childCount : Int) (rows : List RowLocation) (data : List Row)
      (subtree2 : Subtree Row) (rows2 : List RowLocation) (data2 : List Row) (fin : Bool),
      extractSubtreeLoop fuel subtree root parent minDepth childCount rows data
          = Extraction.positions subtree2 rows2 data2 fin →
        subtree2.length + rows2.length = subtree.length + rows.length
        ∧ rows2 <:+ rows
        ∧ (fin = true → rows2 = [] ∨ ∃ r rest, rows2 = r :: rest ∧ r.depth < root.depth)
        ∧ (fin = false → ∃ r rest, rows2 = r :: rest ∧ r.depth < minDepth) := by
  intro fuel
  induction fuel with
  | zero =>
    intro subtree root parent minDepth childCount rows data subtree2 rows2 data2 fin h
    simp [extractSubtreeLoop] at h
  | succ fuel ih =>
    intro subtree root parent minDepth childCount rows data subtree2 rows2 data2 fin h
    cases rows with
    | nil =>
      simp only [extractSubtreeLoop, Extraction.positions.injEq] at h
      obtain ⟨h1, h2, _, h4⟩ := h
      subst h1 h2 h4
      exact ⟨rfl, List.suffix_refl _, fun _ => Or.inl rfl, fun hf => by cases hf⟩
    | cons row rows =>
      simp only [extractSubtreeLoop] at h
      by_cases hgt : row.depth > minDepth
      · rw [if_pos hgt] at h
        by_cases hnext : row.depth = minDepth + 1
        · rw [if_pos hnext] at h
          cases hrec : extractSubtreeLoop fuel subtree root subtree.backLocation
              (minDepth + 1) 0 (row :: rows) data with
          | positions subtree3 rows3 data3 fin3 =>
            rw [hrec] at h
            have ih3 := ih _ _ _ _ _ _ _ _ _ _ _ hrec
            cases fin3 with
            | true =>
              simp only [if_true, Extraction.positions.injEq] at h
              obtain ⟨h1, h2, _, h4⟩ := h
              subst h1 h2 h4
              exact ⟨ih3.1, ih3.2.1, ih3.2.2.1, fun hf => by cases hf⟩
            | false =>
              simp only [Bool.false_eq_true, if_false] at h
              have ih2 := ih _ _ _ _ _ _ _ _ _ _ _ h
              exact ⟨ih2.1.trans ih3.1, ih2.2.1.trans ih3.2.1, ih2.2.2.1, ih2.2.2.2⟩
          | none => rw [hrec] at h; cases h
          | undefined => rw [hrec] at h; cases h
          | outOfFuel => rw [hrec] at h; cases h
        · rw [if_neg hnext] at h
          cases h
      · rw [if_neg hgt] at h
        by_cases hlt : row.depth < minDepth
        · rw [if_pos hlt] at h
          by_cases hroot : row.depth < root.depth
          · rw [if_pos hroot] at h
            simp only [Extraction.positions.injEq] at h
            obtain ⟨h1, h2, _, h4⟩ := h
            subst h1 h2 h4
            exact ⟨rfl, List.suffix_refl _, fun _ => Or.inr ⟨row, rows, rfl, hroot⟩,
              fun hf => by cases hf⟩
          · rw [if_neg hroot] at h
            simp only [Extraction.positions.injEq] at h
            obtain ⟨h1, h2, _, h4⟩ := h
            subst h1 h2 h4
            exact ⟨rfl, List.suffix_refl _, (fun hf => by cases hf),
              fun _ => ⟨row, rows, rfl, hlt⟩⟩
        · rw [if_neg hlt] at h
          cases data with
          | nil => cases h
          | cons rowData data =>
            simp only at h
            have ih2 := ih _ _ _ _ _ _ _ _ _ _ _ h
            refine ⟨?_, ih2.2.1.trans (List.suffix_cons row rows), ih2.2.2.1, ih2.2.2.2⟩
            have := ih2.1
            simp only [List.length_append, List.length_cons, List.length_nil] at this ⊢
            omega

/-- The node count of a list of subtrees extended by one subtree. -/
theorem nodeCount_append_singleton {Row : Type} (subtrees : List (Subtree Row))
    (subtree : Subtree Row) :
    nodeCount (subtrees ++ [subtree]) = nodeCount subtrees + subtree.length := by
  simp [nodeCount]

/-- The loop of `operator()` never makes more nodes than there are rows. -/
theorem extractSubtreesWhile_nodeCount_le {Row : Type} :
    ∀ (fuel : Nat) (rows : List RowLocation) (data : List Row) (done : Bool)
      (subtrees result : List (Subtree Row)),
      extractSubtreesWhile fuel rows data done subtrees = Outcome.returned (some result) →
        nodeCount result ≤ nodeCount subtrees + rows.length := by
  intro fuel
  induction fuel with
  | zero =>
    intro rows data done subtrees result h
    simp [extractSubtreesWhile] at h
  | succ fuel ih =>
    intro rows data done subtrees result h
    cases rows with
    | nil =>
      simp only [extractSubtreesWhile, Outcome.returned.injEq, Option.some.injEq] at h
      subst h
      simp
    | cons row rows =>
      simp only [extractSubtreesWhile] at h
      cases done with
      | true =>
        simp only [if_true, Outcome.returned.injEq, Option.some.injEq] at h
        subst h
        simp
      | false =>
        simp only [Bool.false_eq_true, if_false] at h
        cases data with
        | nil => cases h
        | cons rowData data =>
          simp only [extractSubtreeRecursive] at h
          cases hrec : extractSubtreeLoop (2 * rows.length + 1) [(RowLocation.root, rowData)]
              row RowLocation.root (row.depth + 1) 0 rows data with
          | positions subtree rows2 data2 done2 =>
            rw [hrec] at h
            have hpos := extractSubtreeLoop_positions _ _ _ _ _ _ _ _ _ _ _ _ hrec
            have hle := ih _ _ _ _ _ h
            rw [nodeCount_append_singleton] at hle
            have := hpos.1
            simp only [List.length_cons, List.length_nil] at this ⊢
            omega
          | none => rw [hrec] at h; cases h
          | undefined => rw [hrec] at h; cases h
          | outOfFuel => rw [hrec] at h; cases h

/-- When no row is shallower than the depth `D` of the roots, the loop of
`operator()` turns every row into a node. -/
theorem extractSubtreesWhile_nodeCount_eq {Row : Type} (D : Int) :
    ∀ (fuel : Nat) (rows : List RowLocation) (data : List Row) (done : Bool)
      (subtrees result : List (Subtree Row)),
      (∀ r ∈ rows, D ≤ r.depth) →
      (done = true → rows = []) →
      (∀ r rest, rows = r :: rest → r.depth = D) →
      extractSubtreesWhile fuel rows data done subtrees = Outcome.returned (some result) →
        nodeCount result = nodeCount subtrees + rows.length := by
  intro fuel
  induction fuel with
  | zero =>
    intro rows data done subtrees result _ _ _ h
    simp [extractSubtreesWhile] at h
  | succ fuel ih =>
    intro rows data done subtrees result hdeep hdone hhead h
    cases rows with
    | nil =>
      simp only [extractSubtreesWhile, Outcome.returned.injEq, Option.some.injEq] at h
      subst h
      simp
    | cons row rows =>
      simp only [extractSubtreesWhile] at h
      cases done with
      | true => exact absurd (hdone rfl) (by simp)
      | false =>
        simp only [Bool.false_eq_true, if_false] at h
        cases data with
        | nil => cases h
        | cons rowData data =>
          simp only [extractSubtreeRecursive] at h
          cases hrec : extractSubtreeLoop (2 * rows.length + 1) [(RowLocation.root, rowData)]
              row RowLocation.root (row.depth + 1) 0 rows data with
          | positions subtree rows2 data2 done2 =>
            rw [hrec] at h
            obtain ⟨hcount, hsuffix, hfin, hnotfin⟩ :=
              extractSubtreeLoop_positions _ _ _ _ _ _ _ _ _ _ _ _ hrec
            have hrow : row.depth = D := hhead row rows rfl
            have hdeep2 : ∀ r ∈ rows2, D ≤ r.depth := fun r hr =>
              hdeep r (List.mem_cons_of_mem _ (hsuffix.subset hr))
            have hdone2 : done2 = true → rows2 = [] := by
              intro hd
              rcases hfin hd with hnil | ⟨r, rest, hr, hshallow⟩
              · exact hnil
              · have := hdeep2 r (by rw [hr]; exact List.mem_cons_self _ _)
                omega
            have hhead2 : ∀ r rest, rows2 = r :: rest → r.depth = D := by
              intro r rest hr
              have hge := hdeep2 r (by rw [hr]; exact List.mem_cons_self _ _)
              cases hd : done2 with
              | true => rw [hdone2 hd] at hr; cases hr
              | false =>
                obtain ⟨r2, rest2, hr2, hlt⟩ := hnotfin hd
                rw [hr] at hr2
                cases hr2
                omega
            have heq := ih _ _ _ _ _ hdeep2 hdone2 hhead2 h
            rw [nodeCount_append_singleton] at heq
            simp only [List.length_cons, List.length_nil] at hcount ⊢
            omega
          | none => rw [hrec] at h; cases h
          | undefined => rw [hrec] at h; cases h
          | outOfFuel => rw [hrec] at h; cases h

/-- With as many data as rows the extraction loop never dereferences the end
of the data, and it leaves as many data as rows. -/
theorem extractSubtreeLoop_data {Row : Type} :
    ∀ (fuel : Nat) (subtree : Subtree Row) (root parent : RowLocation)
      (minDepth childCount : Int) (rows : List RowLocation) (data : List Row),
      data.length = rows.length →
        extractSubtreeLoop fuel subtree root parent minDepth childCount rows data
            ≠ Extraction.undefined
        ∧ ∀ (subtree2 : Subtree Row) (rows2 : List RowLocation) (data2 : List Row)
            (fin : Bool),
            extractSubtreeLoop fuel subtree root parent minDepth childCount rows data
                = Extraction.positions subtree2 rows2 data2 fin →
              data2.length = rows2.length := by
  intro fuel
  induction fuel with
  | zero =>
    intro subtree root parent minDepth childCount rows data _
    simp [extractSubtreeLoop]
  | succ fuel ih =>
    intro subtree root parent minDepth childCount rows data hlen
    cases rows with
    | nil =>
      simp only [extractSubtreeLoop]
      refine ⟨by simp, ?_⟩
      simp only [Extraction.positions.injEq]
      rintro _ _ _ _ ⟨_, h2, h3, _⟩
      subst h2 h3
      exact hlen
    | cons row rows =>
      simp only [extractSubtreeLoop]
      by_cases hgt : row.depth > minDepth
      · rw [if_pos hgt]
        by_cases hnext : row.depth = minDepth + 1
        · rw [if_pos hnext]
          have ih3 := ih subtree root subtree.backLocation (minDepth + 1) 0 (row :: rows) data hlen
          cases hrec : extractSubtreeLoop fuel subtree root subtree.backLocation
              (minDepth + 1) 0 (row :: rows) data with
          | positions subtree3 rows3 data3 fin3 =>
            have hlen3 := ih3.2 _ _ _ _ hrec
            cases fin3 with
            | true =>
              simp only [if_true]
              refine ⟨by simp, ?_⟩
              simp only [Extraction.positions.injEq]
              rintro _ _ _ _ ⟨_, h2, h3, _⟩
              subst h2 h3
              exact hlen3
            | false =>
              simp only [Bool.false_eq_true, if_false]
              exact ih _ _ _ _ _ _ _ hlen3
          | none => simp
          | undefined => exact absurd hrec ih3.1
          | outOfFuel => simp
        · rw [if_neg hnext]
          simp
      · rw [if_neg hgt]
        by_cases hlt : row.depth < minDepth
        · rw [if_pos hlt]
          by_cases hroot : row.depth < root.depth
          · rw [if_pos hroot]
            refine ⟨by simp, ?_⟩
            simp only [Extraction.positions.injEq]
            rintro _ _ _ _ ⟨_, h2, h3, _⟩
            subst h2 h3
            exact hlen
          · rw [if_neg hroot]
            refine ⟨by simp, ?_⟩
            simp only [Extraction.positions.injEq]
            rintro _ _ _ _ ⟨_, h2, h3, _⟩
            subst h2 h3
            exact hlen
        · rw [if_neg hlt]
          cases data with
          | nil => simp at hlen
          | cons rowData data =>
            simp only
            exact ih _ _ _ _ _ _ _ (by simpa using hlen)

/-- A row at depth `minDepth` is consumed: what the loop leaves is no longer
than the rows after it. -/
theorem extractSubtreeLoop_consumes {Row : Type} (fuel : Nat) (subtree : Subtree Row)
    (root parent : RowLocation) (minDepth childCount : Int) (row : RowLocation)
    (rows : List RowLocation) (data : List Row) (subtree2 : Subtree Row)
    (rows2 : List RowLocation) (data2 : List Row) (fin : Bool)
    (hdepth : row.depth = minDepth)
    (h : extractSubtreeLoop fuel subtree root parent minDepth childCount (row :: rows) data
        = Extraction.positions subtree2 rows2 data2 fin) :
    rows2.length ≤ rows.length := by
  cases fuel with
  | zero => simp [extractSubtreeLoop] at h
  | succ fuel =>
    simp only [extractSubtreeLoop, hdepth, gt_iff_lt, lt_self_iff_false, if_false] at h
    cases data with
    | nil => cases h
    | cons rowData data =>
      simp only at h
      exact (extractSubtreeLoop_positions _ _ _ _ _ _ _ _ _ _ _ _ h).2.1.length_le

/-- Fuel `2 * n + 1` is enough for the extraction loop over `n` rows, and
`2 * n` when the first row is at depth `minDepth`. -/
theorem extractSubtreeLoop_fuel {Row : Type} :
    ∀ (fuel : Nat),
      (∀ (subtree : Subtree Row) (root parent : RowLocation) (minDepth childCount : Int)
          (rows : List RowLocation) (data : List Row),
          2 * rows.length + 1 ≤ fuel →
            extractSubtreeLoop fuel subtree root parent minDepth childCount rows data
              ≠ Extraction.outOfFuel)
      ∧ (∀ (subtree : Subtree Row) (root parent : RowLocation) (minDepth childCount : Int)
          (row : RowLocation) (rows : List RowLocation) (data : List Row),
          row.depth = minDepth → 2 * (rows.length + 1) ≤ fuel →
            extractSubtreeLoop fuel subtree root parent minDepth childCount (row :: rows) data
              ≠ Extraction.outOfFuel) := by
  intro fuel
  induction fuel with
  | zero =>
    constructor
    · intro _ _ _ _ _ rows _ h
      omega
    · intro _ _ _ _ _ _ rows _ _ h
      omega
  | succ fuel ih =>
    obtain ⟨ihP, ihQ⟩ := ih
    constructor
    · intro subtree root parent minDepth childCount rows data hfuel
      cases rows with
      | nil => simp [extractSubtreeLoop]
      | cons row rows =>
        simp only [List.length_cons] at hfuel
        simp only [extractSubtreeLoop]
        by_cases hgt : row.depth > minDepth
        · rw [if_pos hgt]
          by_cases hnext : row.depth = minDepth + 1
          · rw [if_pos hnext]
            cases hrec : extractSubtreeLoop fuel subtree root subtree.backLocation
                (minDepth + 1) 0 (row :: rows) data with
            | positions subtree3 rows3 data3 fin3 =>
              have hshort := extractSubtreeLoop_consumes _ _ _ _ _ _ _ _ _ _ _ _ _ hnext hrec
              cases fin3 with
              | true => simp
              | false =>
                simp only [Bool.false_eq_true, if_false]
                exact ihP _ _ _ _ _ _ _ (by omega)
            | none => simp
            | undefined => simp
            | outOfFuel =>
              exact absurd hrec (ihQ _ _ _ _ _ _ _ _ hnext (by omega))
          · rw [if_neg hnext]
            simp
        · rw [if_neg hgt]
          by_cases hlt : row.depth < minDepth
          · rw [if_pos hlt]
            by_cases hroot : row.depth < root.depth
            · rw [if_pos hroot]; simp
            · rw [if_neg hroot]; simp
          · rw [if_neg hlt]
            cases data with
            | nil => simp
            | cons rowData data =>
              simp only
              exact ihP _ _ _ _ _ _ _ (by omega)
    · intro subtree root parent minDepth childCount row rows data hdepth hfuel
      simp only [extractSubtreeLoop, hdepth, gt_iff_lt, lt_self_iff_false, if_false]
      cases data with
      | nil => simp
      | cons rowData data =>
        simp only
        exact ihP _ _ _ _ _ _ _ (by omega)

/-- With as many data as rows and one unit of fuel per row and one more, the
loop of `operator()` returns. -/
theorem extractSubtreesWhile_returns {Row : Type} :
    ∀ (fuel : Nat) (rows : List RowLocation) (data : List Row) (done : Bool)
      (subtrees : List (Subtree Row)),
      data.length = rows.length → rows.length + 1 ≤ fuel →
        ∃ result, extractSubtreesWhile fuel rows data done subtrees = Outcome.returned result := by
  intro fuel
  induction fuel with
  | zero =>
    intro rows data done subtrees _ hfuel
    omega
  | succ fuel ih =>
    intro rows data done subtrees hlen hfuel
    cases rows with
    | nil => exact ⟨some subtrees, by simp only [extractSubtreesWhile]⟩
    | cons row rows =>
      simp only [extractSubtreesWhile]
      cases done with
      | true => exact ⟨some subtrees, by simp only [if_true]⟩
      | false =>
        simp only [Bool.false_eq_true, if_false]
        cases data with
        | nil => simp at hlen
        | cons rowData data =>
          have hlen2 : data.length = rows.length := by simpa using hlen
          simp only [extractSubtreeRecursive]
          have hdata := extractSubtreeLoop_data (2 * rows.length + 1)
            [(RowLocation.root, rowData)] row RowLocation.root (row.depth + 1) 0 rows data hlen2
          cases hrec : extractSubtreeLoop (2 * rows.length + 1) [(RowLocation.root, rowData)]
              row RowLocation.root (row.depth + 1) 0 rows data with
          | positions subtree rows2 data2 done2 =>
            simp only
            have hsuffix := (extractSubtreeLoop_positions _ _ _ _ _ _ _ _ _ _ _ _ hrec).2.1
            have := hsuffix.length_le
            simp only [List.length_cons] at hfuel
            exact ih _ _ _ _ (hdata.2 _ _ _ _ hrec) (by omega)
          | none => exact ⟨_, rfl⟩
          | undefined => exact absurd hrec hdata.1
          | outOfFuel =>
            exact absurd hrec ((extractSubtreeLoop_fuel (2 * rows.length + 1)).1 _ _ _ _ _ _ _
              (le_refl _))

/-- The call operator is total on vectors of equal length: it returns, never
running out of fuel or past the end of the data. -/
theorem ExtractSubtrees_call_returns {Row : Type} (region : List RowLocation)
    (regionData : List Row) (hlen : region.length = regionData.length) :
    ∃ result, ExtractSubtrees.call region regionData = Outcome.returned result := by
  simp only [ExtractSubtrees.call, assertOrThrow, hlen, decide_True, if_true]
  by_cases hne : region = []
  · exact ⟨_, by rw [if_neg (not_not.mpr hne)]⟩
  · rw [if_pos hne]
    exact extractSubtreesWhile_returns _ _ _ _ _
      (by rw [sortRegion, List.length_insertionSort]; exact hlen.symm)
      (by rw [sortRegion, List.length_insertionSort]; omega)

/-- C11: `ExtractSubtrees::operator()` raises when `region` and `regionData`
have different lengths (the length check comes first), and returns none, no
list of subtrees, when `region` is empty (and so, the check passed,
`regionData` too). -/
theorem ExtractSubtrees_call_raises_or_none {Row : Type} (region : List RowLocation)
    (regionData : List Row) :
    (region.length ≠ regionData.length →
        ∃ what : String, ExtractSubtrees.call region regionData = Outcome.threw what)
    ∧ (region = [] → region.length = regionData.length →
        ExtractSubtrees.call region regionData = Outcome.returned Option.none) := by
  constructor
  · intro hne
    simp only [ExtractSubtrees.call, assertOrThrow, hne, decide_False, Bool.false_eq_true,
      if_false]
    exact ⟨_, rfl⟩
  · intro hempty hlen
    subst hempty
    simp only [ExtractSubtrees.call, assertOrThrow, hlen, decide_True, if_true, ne_eq,
      not_true_eq_false, if_false]

/-- C11, at concrete inputs: one row with two data raises; no row and no data
gives none. -/
theorem ExtractSubtrees_call_raises_or_none_witness :
    (∃ what : String,
        ExtractSubtrees.call [RowLocation.root.child 0] ["a", "b"] = Outcome.threw what)
    ∧ ExtractSubtrees.call [] ([] : List String) = Outcome.returned Option.none :=
  ⟨(ExtractSubtrees_call_raises_or_none [RowLocation.root.child 0] ["a", "b"]).1 (by decide),
   (ExtractSubtrees_call_raises_or_none [] ([] : List String)).2 rfl rfl⟩

/-- C16, as stated, fails: for the region of the two rows `[0, 0]` and `[1]`
(equal non-zero length with the data), `operator()` returns a list holding one
subtree of one node: the row `[1]`, shallower than the root `[0, 0]`, ends the
extraction and is dropped. -/
theorem ExtractSubtrees_call_drops_shallower_row :
    ExtractSubtrees.call [{ path := [0, 0] }, { path := [1] }] ["a", "b"]
        = Outcome.returned (some [[(RowLocation.root, "a")]])
    ∧ nodeCount [[(RowLocation.root, "a")]] = 1
    ∧ [({ path := [0, 0] } : RowLocation), { path := [1] }].length = 2 := by
  refine ⟨rfl, rfl, rfl⟩

/-- C16, amended: for every `region` and `regionData` of equal non-zero
length, if `operator()` returns a list of subtrees then the total number of
nodes in those subtrees is at most the number of rows in `region`, and equals
it when no row of `region` is shallower than the first row in sorted order
(the root of the first subtree). -/
theorem ExtractSubtrees_call_nodeCount {Row : Type} (region : List RowLocation)
    (regionData : List Row) (subtrees : List (Subtree Row))
    (hlen : region.length = regionData.length) (hne : region ≠ [])
    (hret : ExtractSubtrees.call region regionData = Outcome.returned (some subtrees)) :
    nodeCount subtrees ≤ region.length
    ∧ ((∀ first ∈ (sortRegion region).head?, ∀ r ∈ region, first.depth ≤ r.depth) →
        nodeCount subtrees = region.length) := by
  simp only [ExtractSubtrees.call, assertOrThrow, hlen, decide_True, if_true, if_pos hne] at hret
  have hsorted : (sortRegion region).length = region.length := by
    rw [sortRegion, List.length_insertionSort]
  constructor
  · have := extractSubtreesWhile_nodeCount_le _ _ _ _ _ _ hret
    simpa [nodeCount, hsorted] using this
  · intro hdeep
    cases hs : sortRegion region with
    | nil =>
      rw [hs] at hsorted
      exact absurd (List.length_eq_zero.mp hsorted.symm) hne
    | cons first rest =>
      have hfirst : first ∈ (sortRegion region).head? := by rw [hs]; rfl
      have hmem : ∀ r ∈ sortRegion region, first.depth ≤ r.depth := fun r hr =>
        hdeep first hfirst r ((List.mem_insertionSort RowLocation.le).mp hr)
      have := extractSubtreesWhile_nodeCount_eq first.depth _ (sortRegion region) regionData
        false [] subtrees hmem (fun h => by cases h)
        (fun r rest2 hr => by rw [hs] at hr; cases hr; rfl) hret
      simpa [nodeCount, hsorted] using this

/-- C16, amended, at a concrete input: the rows `[1]`, `[0]`, `[0, 1]`,
`[0, 0]`, none shallower than the first sorted row `[0]`, come back as two
subtrees with four nodes in all. -/
theorem ExtractSubtrees_call_nodeCount_witness :
    nodeCount
        [[(RowLocation.root, "a"), (RowLocation.root.child 0, "b"),
          (RowLocation.root.child 1, "c")],
         [(RowLocation.root, "d")]] = 4 :=
  (ExtractSubtrees_call_nodeCount
    [{ path := [1] }, { path := [0] }, { path := [0, 1] }, { path := [0, 0] }]
    ["a", "b", "c", "d"]
    [[(RowLocation.root, "a"), (RowLocation.root.child 0, "b"),
      (RowLocation.root.child 1, "c")],
     [(RowLocation.root, "d")]]
    rfl (by decide) rfl).2 (by decide)

end Batch

end MantidWidgets

end MantidQt

namespace MantidQt

namespace MantidWidgets

namespace TimeIndexScrollBar

/-- On finite arguments `set(minimum, maximum)` does what is documented: it
raises exactly when an argument is outside `[0, 1]` and then leaves the scroll
bar as it was; otherwise it stores the smaller value as the minimum and the
larger as the maximum, and the width is between 0 and 1. -/
theorem set_finite (indefinite : Int) (self : TimeIndexScrollBar) (minimum maximum : ℚ) :
    ((self.set indefinite (Double.finite minimum) (Double.finite maximum)).thrown ≠ none
        ↔ (minimum < 0 ∨ minimum > 1 ∨ maximum < 0 ∨ maximum > 1))
    ∧ ((minimum < 0 ∨ minimum > 1 ∨ maximum < 0 ∨ maximum > 1) →
        (self.set indefinite (Double.finite minimum) (Double.finite maximum)).self = self)
    ∧ (¬ (minimum < 0 ∨ minimum > 1 ∨ maximum < 0 ∨ maximum > 1) →
        (self.set indefinite (Double.finite minimum) (Double.finite maximum)).self.getMinimum
            = Double.finite (min minimum maximum)
        ∧ (self.set indefinite (Double.finite minimum) (Double.finite maximum)).self.getMaximum
            = Double.finite (max minimum maximum)
        ∧ ∃ width : ℚ,
            (self.set indefinite (Double.finite minimum)
                (Double.finite maximum)).self.getWidth = Double.finite width
            ∧ 0 ≤ width ∧ width ≤ 1) := by
  have hguard : (Double.lt (Double.finite minimum) (Double.finite 0)
        || Double.gt (Double.finite minimum) (Double.finite 1)
        || Double.lt (Double.finite maximum) (Double.finite 0)
        || Double.gt (Double.finite maximum) (Double.finite 1)) = true
      ↔ (minimum < 0 ∨ minimum > 1 ∨ maximum < 0 ∨ maximum > 1) := by
    simp only [Double.lt, Double.gt, Bool.or_eq_true, decide_eq_true_eq, gt_iff_lt, or_assoc]
  by_cases hout : minimum < 0 ∨ minimum > 1 ∨ maximum < 0 ∨ maximum > 1
  · have hg := hguard.mpr hout
    refine ⟨⟨fun _ => hout, fun _ => ?_⟩, fun _ => ?_, fun hin => absurd hout hin⟩
    · simp only [set, if_pos hg, ne_eq, not_false_eq_true, reduceCtorEq]
    · simp only [set, if_pos hg]
  · have hg : ¬ ((Double.lt (Double.finite minimum) (Double.finite 0)
        || Double.gt (Double.finite minimum) (Double.finite 1)
        || Double.lt (Double.finite maximum) (Double.finite 0)
        || Double.gt (Double.finite maximum) (Double.finite 1)) = true) :=
      fun h => hout (hguard.mp h)
    refine ⟨⟨fun hthrown => ?_, fun h => absurd h hout⟩, fun h => absurd h hout, fun _ => ?_⟩
    · simp only [set, if_neg hg, ne_eq, not_true_eq_false] at hthrown
    · simp only [not_or, not_lt] at hout
      obtain ⟨h1, h2, h3, h4⟩ := hout
      simp only [set, if_neg hg, getMinimum, getMaximum, getWidth]
      by_cases hswap : maximum < minimum
      · have hs : Double.gt (Double.finite minimum) (Double.finite maximum) = true := by
          simp only [Double.gt, Double.lt, decide_eq_true_eq]
          exact hswap
        simp only [hs, if_true, Double.sub]
        refine ⟨by rw [min_eq_right (le_of_lt hswap)], by rw [max_eq_left (le_of_lt hswap)],
          minimum - maximum, rfl, ?_, ?_⟩
        · linarith
        · linarith
      · have hs : Double.gt (Double.finite minimum) (Double.finite maximum) = false := by
          simp only [Double.gt, Double.lt, decide_eq_false_iff_not]
          exact hswap
        have hle : minimum ≤ maximum := not_lt.mp hswap
        simp only [hs, Bool.false_eq_true, if_false, Double.sub]
        refine ⟨by rw [min_eq_left hle], by rw [max_eq_right hle],
          maximum - minimum, rfl, ?_, ?_⟩
        · linarith
        · linarith

/-- C12, on the code: a NaN lies outside `[0, 1]`, yet `set` does not raise
for it: every comparison of the guard is false, the NaN is stored, and
afterwards `getMinimum()` and `getWidth()` are NaN, not values between 0 and
1. This holds for `set(NaN, NaN)` and for `set(NaN, 1/2)` on every scroll bar,
and `set(NaN, NaN)` is what `setWholeRange` passes from a control whose total
range has zero width (here from 5 to 5), the quotients being `0 / 0`. -/
theorem set_accepts_nan (indefinite : Int) (self : TimeIndexScrollBar) :
    ((self.set indefinite Double.nan Double.nan).thrown = none
      ∧ (self.set indefinite Double.nan Double.nan).self.getMinimum = Double.nan
      ∧ (self.set indefinite Double.nan Double.nan).self.getMaximum = Double.nan
      ∧ (self.set indefinite Double.nan Double.nan).self.getWidth = Double.nan)
    ∧ ((self.set indefinite Double.nan (Double.finite (1 / 2))).thrown = none
      ∧ (self.set indefinite Double.nan (Double.finite (1 / 2))).self.getMinimum = Double.nan
      ∧ (self.set indefinite Double.nan (Double.finite (1 / 2))).self.getWidth = Double.nan)
    ∧ ((TimeIndexControl.setWholeRange indefinite
          { m_totalMinimum := Double.finite 5, m_totalMaximum := Double.finite 5,
            m_minimum := Double.finite 5, m_maximum := Double.finite 5,
            m_scrollBar := self }).thrown = none
      ∧ (TimeIndexControl.setWholeRange indefinite
          { m_totalMinimum := Double.finite 5, m_totalMaximum := Double.finite 5,
            m_minimum := Double.finite 5, m_maximum := Double.finite 5,
            m_scrollBar := self }).self.m_scrollBar.getMinimum = Double.nan) := by
  refine ⟨⟨rfl, rfl, rfl, rfl⟩, ⟨?_, ?_, ?_⟩, ?_, ?_⟩
  · norm_num [set, Double.lt, Double.gt]
  · norm_num [set, Double.lt, Double.gt, getMinimum]
  · norm_num [set, Double.lt, Double.gt, Double.sub, getWidth]
  · simp [TimeIndexControl.setWholeRange, TimeIndexControl.setRange, set, Double.lt, Double.gt,
      Double.sub, Double.div]
  · simp [TimeIndexControl.setWholeRange, TimeIndexControl.setRange, set, Double.lt, Double.gt,
      Double.sub, Double.div, getMinimum]

end TimeIndexScrollBar

end MantidWidgets

end MantidQt

namespace Mantid

namespace WorkflowAlgorithms

namespace DgsReduction

/-- C15: `loadInputData(prop, mustLoad)` raises `runtime_error` if and only if
`mustLoad` is true and the properties `<prop>InputFile` and
`<prop>InputWorkspace` are either both non-empty or both empty; when
`mustLoad` is false and they are both non-empty or both empty it returns a
null workspace and loads nothing. -/
theorem loadInputData_runtime_error_iff {W : Type} (self : DgsReduction W)
    (prop : Algorithms.StdString) (mustLoad : Bool) :
    ((∃ what, (self.loadInputData prop mustLoad).outcome = Outcome.runtime_error what)
        ↔ (mustLoad = true
            ∧ ((self.getPropertyValue (prop ++ "InputFile".toList) ≠ []
                  ∧ self.getPropertyValue (prop ++ "InputWorkspace".toList) ≠ [])
                ∨ (self.getPropertyValue (prop ++ "InputFile".toList) = []
                  ∧ self.getPropertyValue (prop ++ "InputWorkspace".toList) = []))))
    ∧ (mustLoad = false →
        ((self.getPropertyValue (prop ++ "InputFile".toList) ≠ []
              ∧ self.getPropertyValue (prop ++ "InputWorkspace".toList) ≠ [])
            ∨ (self.getPropertyValue (prop ++ "InputFile".toList) = []
              ∧ self.getPropertyValue (prop ++ "InputWorkspace".toList) = [])) →
        (self.loadInputData prop mustLoad).outcome = Outcome.returned none
        ∧ (self.loadInputData prop mustLoad).effects = []) := by
  simp only [loadInputData]
  generalize self.getPropertyValue (prop ++ "InputFile".toList) = inputData
  generalize self.getPropertyValue (prop ++ "InputWorkspace".toList) = inputWSName
  by_cases hfile : inputData = [] <;> by_cases hws : inputWSName = [] <;> cases mustLoad
    <;> simp [hfile, hws]

/-- C15, at concrete inputs for `prop = Sample`: with no property set and
`mustLoad` true it raises; with both set and `mustLoad` false it returns the
null workspace without any action. -/
theorem loadInputData_runtime_error_iff_witness :
    (∃ what, ((sampleAlgorithm []).loadInputData "Sample".toList true).outcome
        = Outcome.runtime_error what)
    ∧ ((sampleAlgorithm [("SampleInputFile".toList, "run.nxs".toList),
            ("SampleInputWorkspace".toList, "ws".toList)]).loadInputData
          "Sample".toList false).outcome = Outcome.returned none
    ∧ ((sampleAlgorithm [("SampleInputFile".toList, "run.nxs".toList),
            ("SampleInputWorkspace".toList, "ws".toList)]).loadInputData
          "Sample".toList false).effects = [] :=
  ⟨(loadInputData_runtime_error_iff (sampleAlgorithm []) "Sample".toList true).1.2
      ⟨rfl, Or.inr ⟨by decide, by decide⟩⟩,
   ((loadInputData_runtime_error_iff
      (sampleAlgorithm [("SampleInputFile".toList, "run.nxs".toList),
        ("SampleInputWorkspace".toList, "ws".toList)]) "Sample".toList false).2 rfl
      (Or.inl ⟨by decide, by decide⟩)).1,
   ((loadInputData_runtime_error_iff
      (sampleAlgorithm [("SampleInputFile".toList, "run.nxs".toList),
        ("SampleInputWorkspace".toList, "ws".toList)]) "Sample".toList false).2 rfl
      (Or.inl ⟨by decide, by decide⟩)).2⟩

end DgsReduction

end WorkflowAlgorithms

end Mantid

namespace MantidQt

namespace CustomInterfaces

namespace Presenter

/-- On rows that all have a run number, the inner loop of `loadGroup` loads
the run of every row as non-event data, in order. -/
theorem loadGroupAsNonEvent_eq {World : Type} (self : Presenter World) (group : GroupData) :
    ∀ w : World, (∀ row ∈ group, row.2 ≠ []) →
      loadGroupAsNonEvent self w group
        = some (self.afterNonEventLoads w (runNumbers group)) := by
  induction group with
  | nil => intro w _; rfl
  | cons row rest ih =>
    intro w hrows
    have hrow : row.2 ≠ [] := hrows row (List.mem_cons_self _ _)
    obtain ⟨runNo, cells, hcells⟩ := List.exists_cons_of_ne_nil hrow
    simp only [loadGroupAsNonEvent, hcells, List.head?_cons]
    rw [ih _ (fun r hr => hrows r (List.mem_cons_of_mem _ hr))]
    simp [afterNonEventLoads, runNumbers, hcells]

/-- When every run loads as event data, the outer loop of `loadGroup` loads
them all and returns true. -/
theorem loadGroupLoop_all_event {World : Type} (self : Presenter World) (group : GroupData)
    (rest : GroupData) :
    ∀ (w : World) (loadedRuns : List QString), (∀ row ∈ rest, row.2 ≠ []) →
      (∀ (k : Nat) (run : QString), (runNumbers rest)[k]? = some run →
        (self.loadEventRun (self.afterEventLoads w ((runNumbers rest).take k)) run).2 = true) →
      loadGroupLoop self group w rest loadedRuns
        = some (self.afterEventLoads w (runNumbers rest), true) := by
  induction rest with
  | nil => intro w loadedRuns _ _; rfl
  | cons row rest ih =>
    intro w loadedRuns hrows hall
    have hrow : row.2 ≠ [] := hrows row (List.mem_cons_self _ _)
    obtain ⟨runNo, cells, hcells⟩ := List.exists_cons_of_ne_nil hrow
    have hruns : runNumbers (row :: rest) = runNo :: runNumbers rest := by
      simp [runNumbers, hcells]
    have h0 : (self.loadEventRun w runNo).2 = true := by
      have := hall 0 runNo (by rw [hruns]; simp)
      simpa [afterEventLoads] using this
    simp only [loadGroupLoop, hcells, List.head?_cons, h0, Bool.not_true, Bool.false_eq_true,
      if_false]
    rw [ih _ _ (fun r hr => hrows r (List.mem_cons_of_mem _ hr))]
    · simp [hruns, afterEventLoads]
    · intro k run hk
      have := hall (k + 1) run (by rw [hruns]; simpa using hk)
      simpa [hruns, afterEventLoads] using this

/-- When the run at position `k` is the first that does not load as event
data, the outer loop of `loadGroup` stops there: it loads every row of the
group as non-event data, removes the monitors of the runs loaded before, and
returns false. -/
theorem loadGroupLoop_first_failure {World : Type} (self : Presenter World)
    (group : GroupData) (hgroup : ∀ row ∈ group, row.2 ≠ []) (rest : GroupData) :
    ∀ (w : World) (loadedRuns : List QString) (k : Nat) (run : QString),
      (∀ row ∈ rest, row.2 ≠ []) →
      (runNumbers rest)[k]? = some run →
      (∀ (j : Nat) (runj : QString), j < k → (runNumbers rest)[j]? = some runj →
        (self.loadEventRun (self.afterEventLoads w ((runNumbers rest).take j)) runj).2 = true) →
      (self.loadEventRun (self.afterEventLoads w ((runNumbers rest).take k)) run).2 = false →
      loadGroupLoop self group w rest loadedRuns
        = some (self.removeMonitors
            (self.afterNonEventLoads
              (self.loadEventRun (self.afterEventLoads w ((runNumbers rest).take k)) run).1
              (runNumbers group))
            (insertRuns ((runNumbers rest).take k) loadedRuns), false) := by
  induction rest with
  | nil =>
    intro w loadedRuns k run _ hk
    simp [runNumbers] at hk
  | cons row rest ih =>
    intro w loadedRuns k run hrows hk hbefore hfail
    have hrow : row.2 ≠ [] := hrows row (List.mem_cons_self _ _)
    obtain ⟨runNo, cells, hcells⟩ := List.exists_cons_of_ne_nil hrow
    have hruns : runNumbers (row :: rest) = runNo :: runNumbers rest := by
      simp [runNumbers, hcells]
    rw [hruns] at hk hbefore hfail ⊢
    cases k with
    | zero =>
      simp only [List.getElem?_cons_zero, Option.some.injEq] at hk
      subst hk
      simp only [List.take_zero, afterEventLoads, List.foldl_nil] at hfail
      simp only [loadGroupLoop, hcells, List.head?_cons, hfail, Bool.not_false, if_true,
        loadGroupAsNonEvent_eq self group _ hgroup, List.take_zero, afterEventLoads,
        List.foldl_nil, insertRuns]
    | succ k =>
      have h0 : (self.loadEventRun w runNo).2 = true := by
        have := hbefore 0 runNo (Nat.succ_pos k) (by simp)
        simpa [afterEventLoads] using this
      simp only [loadGroupLoop, hcells, List.head?_cons, h0, Bool.not_true, Bool.false_eq_true,
        if_false]
      rw [ih (self.loadEventRun w runNo).1 (set_insert runNo loadedRuns) k run
        (fun r hr => hrows r (List.mem_cons_of_mem _ hr)) (by simpa using hk)
        (fun j runj hj hget => by
          have := hbefore (j + 1) runj (Nat.succ_lt_succ hj) (by simpa using hget)
          simpa [afterEventLoads] using this)
        (by simpa [afterEventLoads] using hfail)]
      simp [afterEventLoads, insertRuns]

/-- C13: on a group whose rows all have a run number, `loadGroup` returns,
and it returns true if and only if `loadEventRun` succeeds for every row in
turn; at the first row `k` for which it fails, `loadGroup` returns false and
the state is the one reached by the event loads of the rows up to `k` only,
then the non-event load of every row of the group, then the removal of the
monitors of the rows before `k`: the remaining rows are not tried as event
data. -/
theorem loadGroup_true_iff_all_event {World : Type} (self : Presenter World) (w : World)
    (group : GroupData) (hrows : ∀ row ∈ group, row.2 ≠ []) :
    ∃ (w2 : World) (b : Bool), self.loadGroup w group = some (w2, b)
      ∧ (b = true ↔
          ∀ (k : Nat) (run : QString), (runNumbers group)[k]? = some run →
            (self.loadEventRun (self.afterEventLoads w ((runNumbers group).take k)) run).2
              = true)
      ∧ (∀ (k : Nat) (run : QString), (runNumbers group)[k]? = some run →
          (∀ (j : Nat) (runj : QString), j < k → (runNumbers group)[j]? = some runj →
            (self.loadEventRun (self.afterEventLoads w ((runNumbers group).take j)) runj).2
              = true) →
          (self.loadEventRun (self.afterEventLoads w ((runNumbers group).take k)) run).2
              = false →
          b = false
          ∧ w2 = self.removeMonitors
              (self.afterNonEventLoads
                (self.loadEventRun (self.afterEventLoads w ((runNumbers group).take k)) run).1
                (runNumbers group))
              (insertRuns ((runNumbers group).take k) [])) := by
  by_cases hall : ∀ (k : Nat) (run : QString), (runNumbers group)[k]? = some run →
      (self.loadEventRun (self.afterEventLoads w ((runNumbers group).take k)) run).2 = true
  · refine ⟨self.afterEventLoads w (runNumbers group), true,
      loadGroupLoop_all_event self group group w [] hrows hall, ⟨fun _ => hall, fun _ => rfl⟩, ?_⟩
    intro k run hk _ hfail
    rw [hall k run hk] at hfail
    cases hfail
  · have hex : ∃ k : Nat, ¬ ∀ run : QString, (runNumbers group)[k]? = some run →
        (self.loadEventRun (self.afterEventLoads w ((runNumbers group).take k)) run).2
          = true := by
      by_contra hnone
      exact hall (fun k run hk => by
        by_contra hbad
        exact hnone ⟨k, fun hgood => hbad (hgood run hk)⟩)
    classical
    have hmin : ∀ {m : Nat}, m < Nat.find hex → ¬ ¬ ∀ run : QString,
        (runNumbers group)[m]? = some run →
        (self.loadEventRun (self.afterEventLoads w ((runNumbers group).take m)) run).2
          = true := fun hm => Nat.find_min hex hm
    have hspec := Nat.find_spec hex
    obtain ⟨run0, hk0, hfail0⟩ : ∃ run0, (runNumbers group)[Nat.find hex]? = some run0
        ∧ (self.loadEventRun
            (self.afterEventLoads w ((runNumbers group).take (Nat.find hex))) run0).2
          = false := by
      by_contra hnone
      apply hspec
      intro run hk
      by_contra hbad
      exact hnone ⟨run, hk, by simpa using hbad⟩
    have hbefore0 : ∀ (j : Nat) (runj : QString), j < Nat.find hex →
        (runNumbers group)[j]? = some runj →
        (self.loadEventRun (self.afterEventLoads w ((runNumbers group).take j)) runj).2
          = true := by
      intro j runj hj hget
      have := hmin hj
      exact (not_not.mp this) runj hget
    have hloop := loadGroupLoop_first_failure self group hrows group w [] (Nat.find hex) run0
      hrows hk0 hbefore0 hfail0
    refine ⟨_, false, hloop, ⟨(fun h => by cases h), fun h => absurd h hall⟩, ?_⟩
    intro k run hk hbefore hfail
    have hkeq : k = Nat.find hex := by
      rcases Nat.lt_trichotomy k (Nat.find hex) with hlt | heq | hgt
      · have := hbefore0 k run hlt hk
        rw [this] at hfail
        cases hfail
      · exact heq
      · have := hbefore (Nat.find hex) run0 hgt hk0
        rw [this] at hfail0
        cases hfail0
    subst hkeq
    have hrun : run = run0 := by
      rw [hk0] at hk
      exact (Option.some.inj hk).symm
    subst hrun
    exact ⟨rfl, rfl⟩

/-- C13, at a concrete input: for the runs `1`, `2`, `3`, of which `2` cannot
be loaded as event data, `loadGroup` returns false, and the log shows the
event loads of `1` and `2` only, the non-event loads of all three, and the
removal of the monitors of `1`. -/
theorem loadGroup_true_iff_all_event_witness :
    samplePresenter.loadGroup [] [(0, ["1"]), (1, ["2"]), (2, ["3"])]
      = some (["LoadEventNexus INTER1", "LoadEventNexus INTER2", "Load INTER1",
          "Load INTER2", "Load INTER3", "remove TOF_1_monitors"], false) := by
  obtain ⟨w2, b, hret, _, hfail⟩ :=
    loadGroup_true_iff_all_event samplePresenter [] [(0, ["1"]), (1, ["2"]), (2, ["3"])]
      (by decide)
  obtain ⟨hb, hw⟩ := hfail 1 "2" (by decide)
    (fun j runj hj hget => by
      have hj0 : j = 0 := by omega
      subst hj0
      have hrun : runj = "1" := by
        have : (runNumbers [(0, ["1"]), (1, ["2"]), (2, ["3"])])[0]? = some "1" := by decide
        rw [this] at hget
        exact (Option.some.inj hget).symm
      subst hrun
      decide)
    (by decide)
  rw [hret, hb, hw]
  decide

end Presenter

end CustomInterfaces

end MantidQt
